import Mathlib

/-!
# Match Escrow Vault — shallow embedding

A shallow embedding of `src/contracts/match_escrow_vault/src/lib.rs` (a Soroban
smart contract).  Addresses and 32-byte match identifiers are modelled as `Nat`;
`i128` token amounts are modelled as `Int` (no claim under consideration is
about integer overflow); the `u32`-coded state enum is kept as a `Nat` code,
exactly as the contract stores it.

Soroban semantics relevant to the embedding:
* a contract call that panics traps, and the host rolls back every storage
  write, token transfer and event of that invocation.  Operations are therefore
  written returning `Except (VaultError × Vault) Vault`, where an error carries
  the state at the moment of the panic (before host rollback), and the
  observable effect of one invocation is `step`, which restores the pre-call
  state on any error;
* `require_auth` is an environment-supplied authentication of the stated
  address: it is modelled as always succeeding (the claims under study are not
  about host authentication);
* the token contract's `transfer(from, to, amount)` moves `amount ≥ 0` from
  `from` to `to` and panics when `amount < 0` or the balance of `from` is
  insufficient; `balance(holder)` reads the balance.

Per-match custody (spec §3: "custody held for this match") is tracked as a
ghost accounting component `custody : MatchId → Int`, updated exactly where the
contract transfers tokens on behalf of a match: deposits add to it, payouts,
refunds and emergency withdrawals subtract from it.
-/

namespace ArenaXEscrow

abbrev Address := Nat
abbrev MatchId := Nat

/-- `EscrowState` from lib.rs, a `#[repr(u32)]` enum. -/
inductive EscrowState where
  | awaitingDeposits
  | playerADeposited
  | playerBDeposited
  | fullyFunded
  | locked
  | released
  | refunded
  | disputed
deriving DecidableEq, Repr

/-- The `u32` discriminant of each state (`EscrowState::X as u32` in lib.rs). -/
def EscrowState.code : EscrowState → Nat
  | .awaitingDeposits => 0
  | .playerADeposited => 1
  | .playerBDeposited => 2
  | .fullyFunded => 3
  | .locked => 4
  | .released => 5
  | .refunded => 6
  | .disputed => 7

/-- `EscrowData` from lib.rs: one record per match, `state` stored as `u32`. -/
structure EscrowData where
  match_id : MatchId
  player_a : Address
  player_b : Address
  amount : Int
  asset : Address
  state : Nat
  player_a_deposited : Bool
  player_b_deposited : Bool
  created_at : Nat
  locked_at : Option Nat
  released_at : Option Nat
deriving DecidableEq, Repr

/-- The events published by the contract (the `#[contractevent]` structs).
`create_escrow`, `mark_disputed` and `set_paused` publish none. -/
inductive Event where
  | deposited (m : MatchId) (player : Address) (amount : Int) (asset : Address)
  | matchLocked (m : MatchId)
  | fundsReleased (m : MatchId) (winner : Address) (amount : Int) (asset : Address)
  | fundsRefunded (m : MatchId) (pa pb : Address) (amount : Int) (asset : Address)
  | stakeSlashed (m : MatchId) (subject : Address) (amount : Int) (asset : Address)
  | emergencyWithdraw (m : MatchId) (admin : Address) (amount : Int) (asset : Address)
  | treasurySet (t : Address)
deriving DecidableEq, Repr

/-- The panic messages of lib.rs, as an error enumeration. -/
inductive VaultError where
  | contractPaused
  | escrowAlreadyExists
  | invalidAmount
  | samePlayer
  | escrowNotFound
  | playerNotInMatch
  | alreadyDeposited
  | invalidStateForDeposit
  | escrowNotFullyFunded
  | escrowNotLocked
  | winnerNotInMatch
  | escrowAlreadyFinalized
  | escrowNotDisputed
  | resolverNotAuthorized
  | identityContractNotSet
  | treasuryNotSet
  | insufficientBalanceForSlash
  | reentrancyDetected
  | transferFailed
deriving DecidableEq, Repr

/-- The contract's storage plus its environment: instance storage (`admin`,
`treasury`, `paused`), the persistent escrow records, the temporary reentrancy
flags, the token ledgers (`balances asset holder`), the ghost per-match custody
accounting, the published events, the identity contract's `get_role` (when the
identity contract is set), and the ledger timestamp. -/
structure Vault where
  admin : Address
  contractAddr : Address
  treasury : Option Address
  identityRole : Option (Address → Nat)
  paused : Bool
  escrows : MatchId → Option EscrowData
  guard : MatchId → Bool
  balances : Address → Address → Int
  custody : MatchId → Int
  events : List Event
  now : Nat

/-- Token-contract `transfer(from, to, amount)`: `none` models the token
contract panicking (negative amount or insufficient balance). -/
def tokenTransfer (bal : Address → Int) (src dst : Address) (amt : Int) :
    Option (Address → Int) :=
  if 0 ≤ amt ∧ amt ≤ bal src then
    let b1 := fun a => if a = src then bal a - amt else bal a
    some (fun a => if a = dst then b1 a + amt else b1 a)
  else
    none

/-- Apply a token transfer of `asset` inside the vault state, also updating the
ghost custody of match `m` by `dcust` (the net amount moved into contract
custody on behalf of `m`). -/
def vaultTransfer (s : Vault) (asset : Address) (src dst : Address) (amt : Int)
    (m : MatchId) (dcust : Int) : Option Vault :=
  match tokenTransfer (s.balances asset) src dst amt with
  | none => none
  | some bal' =>
      some { s with
        balances := fun a => if a = asset then bal' else s.balances a,
        custody := fun k => if k = m then s.custody k + dcust else s.custody k }

/-- `acquire_reentrancy_guard`: fails if the temporary flag is set, else sets it. -/
def acquireGuard (s : Vault) (m : MatchId) : Except (VaultError × Vault) Vault :=
  if s.guard m then .error (.reentrancyDetected, s)
  else .ok { s with guard := fun k => if k = m then true else s.guard k }

/-- `release_reentrancy_guard`: clears the temporary flag unconditionally. -/
def releaseGuard (s : Vault) (m : MatchId) : Vault :=
  { s with guard := fun k => if k = m then false else s.guard k }

/-- Write an escrow record into persistent storage. -/
def setEscrow (s : Vault) (m : MatchId) (e : EscrowData) : Vault :=
  { s with escrows := fun k => if k = m then some e else s.escrows k }

/-- Publish an event. -/
def emit (s : Vault) (e : Event) : Vault :=
  { s with events := s.events ++ [e] }

/-- `create_escrow` (lib.rs 239-282): pause check, unique-insert check,
`amount > 0`, distinct players; inserts the fresh record.  No value movement,
no event, no reentrancy guard. -/
def create_escrow (s : Vault) (m : MatchId) (pa pb : Address) (amount : Int)
    (asset : Address) : Except (VaultError × Vault) Vault :=
  if s.paused then .error (.contractPaused, s)
  else if (s.escrows m).isSome then .error (.escrowAlreadyExists, s)
  else if amount ≤ 0 then .error (.invalidAmount, s)
  else if pa = pb then .error (.samePlayer, s)
  else .ok (setEscrow s m
    { match_id := m, player_a := pa, player_b := pb, amount := amount,
      asset := asset, state := EscrowState.awaitingDeposits.code,
      player_a_deposited := false, player_b_deposited := false,
      created_at := s.now, locked_at := none, released_at := none })

/-- `deposit` (lib.rs 297-369): pause check, guard, load record, membership and
per-player double-deposit checks, valid-state check, token transfer from the
player into custody, flag update and state recomputation, persist, guard
release, `Deposited` event. -/
def deposit (s : Vault) (m : MatchId) (player : Address) :
    Except (VaultError × Vault) Vault :=
  if s.paused then .error (.contractPaused, s)
  else match acquireGuard s m with
  | .error e => .error e
  | .ok s1 =>
    match s1.escrows m with
    | none => .error (.escrowNotFound, s1)
    | some escrow =>
      let isA := player = escrow.player_a
      let isB := player = escrow.player_b
      if ¬isA ∧ ¬isB then .error (.playerNotInMatch, releaseGuard s1 m)
      else if isA ∧ escrow.player_a_deposited then
        .error (.alreadyDeposited, releaseGuard s1 m)
      else if isB ∧ escrow.player_b_deposited then
        .error (.alreadyDeposited, releaseGuard s1 m)
      else if ¬(escrow.state = EscrowState.awaitingDeposits.code ∨
                escrow.state = EscrowState.playerADeposited.code ∨
                escrow.state = EscrowState.playerBDeposited.code) then
        .error (.invalidStateForDeposit, releaseGuard s1 m)
      else
        match vaultTransfer s1 escrow.asset player s1.contractAddr escrow.amount
            m escrow.amount with
        | none => .error (.transferFailed, s1)
        | some s2 =>
          let escrow' :=
            if isA then
              { escrow with
                player_a_deposited := true
                state := if escrow.player_b_deposited then
                    EscrowState.fullyFunded.code
                  else EscrowState.playerADeposited.code }
            else
              { escrow with
                player_b_deposited := true
                state := if escrow.player_a_deposited then
                    EscrowState.fullyFunded.code
                  else EscrowState.playerBDeposited.code }
          .ok (emit (releaseGuard (setEscrow s2 m escrow') m)
            (.deposited m player escrow.amount escrow.asset))

/-- `lock_funds` (lib.rs 382-408): pause check, admin auth (environmental),
guard, load, `FullyFunded` check, set `Locked` and `locked_at`, persist,
guard release, `MatchLocked` event. -/
def lock_funds (s : Vault) (m : MatchId) : Except (VaultError × Vault) Vault :=
  if s.paused then .error (.contractPaused, s)
  else match acquireGuard s m with
  | .error e => .error e
  | .ok s1 =>
    match s1.escrows m with
    | none => .error (.escrowNotFound, s1)
    | some escrow =>
      if escrow.state ≠ EscrowState.fullyFunded.code then
        .error (.escrowNotFullyFunded, releaseGuard s1 m)
      else
        .ok (emit (releaseGuard
          (setEscrow s1 m { escrow with
                            state := EscrowState.locked.code
                            locked_at := some s1.now }) m)
          (.matchLocked m))

/-- `release_to_winner` (lib.rs 424-470): pause check, admin auth
(environmental), guard, load, `Locked` check, winner-membership check, transfer
`amount * 2` from custody to the winner, set `Released` and `released_at`,
persist, guard release, `FundsReleased` event. -/
def release_to_winner (s : Vault) (m : MatchId) (winner : Address) :
    Except (VaultError × Vault) Vault :=
  if s.paused then .error (.contractPaused, s)
  else match acquireGuard s m with
  | .error e => .error e
  | .ok s1 =>
    match s1.escrows m with
    | none => .error (.escrowNotFound, s1)
    | some escrow =>
      if escrow.state ≠ EscrowState.locked.code then
        .error (.escrowNotLocked, releaseGuard s1 m)
      else if winner ≠ escrow.player_a ∧ winner ≠ escrow.player_b then
        .error (.winnerNotInMatch, releaseGuard s1 m)
      else
        let total := escrow.amount * 2
        match vaultTransfer s1 escrow.asset s1.contractAddr winner total
            m (-total) with
        | none => .error (.transferFailed, s1)
        | some s2 =>
          .ok (emit (releaseGuard
            (setEscrow s2 m { escrow with
                              state := EscrowState.released.code
                              released_at := some s2.now }) m)
            (.fundsReleased m winner total escrow.asset))

/-- `refund` (lib.rs 484-530): pause check, admin auth (environmental), guard,
load, already-finalized check (`Released`/`Refunded`), then one transfer of
`amount` back to each player whose deposited flag is set, set `Refunded` and
`released_at`, persist, guard release, `FundsRefunded` event. -/
def refund (s : Vault) (m : MatchId) : Except (VaultError × Vault) Vault :=
  if s.paused then .error (.contractPaused, s)
  else match acquireGuard s m with
  | .error e => .error e
  | .ok s1 =>
    match s1.escrows m with
    | none => .error (.escrowNotFound, s1)
    | some escrow =>
      if escrow.state = EscrowState.released.code ∨
         escrow.state = EscrowState.refunded.code then
        .error (.escrowAlreadyFinalized, releaseGuard s1 m)
      else
        let ra : Except (VaultError × Vault) Vault :=
          if escrow.player_a_deposited then
            match vaultTransfer s1 escrow.asset s1.contractAddr escrow.player_a
                escrow.amount m (-escrow.amount) with
            | none => .error (.transferFailed, s1)
            | some s2 => .ok s2
          else .ok s1
        match ra with
        | .error e => .error e
        | .ok s2 =>
          let rb : Except (VaultError × Vault) Vault :=
            if escrow.player_b_deposited then
              match vaultTransfer s2 escrow.asset s2.contractAddr escrow.player_b
                  escrow.amount m (-escrow.amount) with
              | none => .error (.transferFailed, s2)
              | some s3 => .ok s3
            else .ok s2
          match rb with
          | .error e => .error e
          | .ok s3 =>
            .ok (emit (releaseGuard
              (setEscrow s3 m { escrow with
                                state := EscrowState.refunded.code
                                released_at := some s3.now }) m)
              (.fundsRefunded m escrow.player_a escrow.player_b escrow.amount
                escrow.asset))

/-- `mark_disputed` (lib.rs 542-560): admin auth (environmental), load,
`Locked` check, set `Disputed`, persist.  Note: no pause check, no reentrancy
guard, no event — exactly as in the source. -/
def mark_disputed (s : Vault) (m : MatchId) : Except (VaultError × Vault) Vault :=
  match s.escrows m with
  | none => .error (.escrowNotFound, s)
  | some escrow =>
    if escrow.state ≠ EscrowState.locked.code then
      .error (.escrowNotLocked, s)
    else
      .ok (setEscrow s m { escrow with state := EscrowState.disputed.code })

/-- `require_resolver_role` (lib.rs 796-824): the admin always passes;
otherwise the identity contract (when set) must report role 1 or 2. -/
def requireResolverRole (s : Vault) (resolver : Address) : Option VaultError :=
  if resolver = s.admin then none
  else match s.identityRole with
    | some role =>
        if role resolver = 1 ∨ role resolver = 2 then none
        else some .resolverNotAuthorized
    | none => some .identityContractNotSet

/-- `resolve_dispute` (lib.rs 577-624): pause check, resolver auth
(environmental), resolver-role check, guard, load, `Disputed` check,
winner-membership check, transfer `amount * 2` from custody to the winner, set
`Released` and `released_at`, persist, guard release, `FundsReleased` event. -/
def resolve_dispute (s : Vault) (m : MatchId) (winner resolver : Address) :
    Except (VaultError × Vault) Vault :=
  if s.paused then .error (.contractPaused, s)
  else match requireResolverRole s resolver with
  | some e => .error (e, s)
  | none =>
    match acquireGuard s m with
    | .error e => .error e
    | .ok s1 =>
      match s1.escrows m with
      | none => .error (.escrowNotFound, s1)
      | some escrow =>
        if escrow.state ≠ EscrowState.disputed.code then
          .error (.escrowNotDisputed, releaseGuard s1 m)
        else if winner ≠ escrow.player_a ∧ winner ≠ escrow.player_b then
          .error (.winnerNotInMatch, releaseGuard s1 m)
        else
          let total := escrow.amount * 2
          match vaultTransfer s1 escrow.asset s1.contractAddr winner total
              m (-total) with
          | none => .error (.transferFailed, s1)
          | some s2 =>
            .ok (emit (releaseGuard
              (setEscrow s2 m { escrow with
                                state := EscrowState.released.code
                                released_at := some s2.now }) m)
              (.fundsReleased m winner total escrow.asset))

/-- `slash_stake` (lib.rs 636-666): admin auth (environmental), `amount > 0`
check, treasury lookup, aggregate custody balance check, transfer to the
treasury, `StakeSlashed` event with the zero match id.  It draws from the
pooled custody balance and touches no escrow record and no per-match custody
account. -/
def slash_stake (s : Vault) (subject : Address) (amount : Int) (asset : Address) :
    Except (VaultError × Vault) Vault :=
  if amount ≤ 0 then .error (.invalidAmount, s)
  else match s.treasury with
  | none => .error (.treasuryNotSet, s)
  | some treas =>
    if s.balances asset s.contractAddr < amount then
      .error (.insufficientBalanceForSlash, s)
    else
      match tokenTransfer (s.balances asset) s.contractAddr treas amount with
      | none => .error (.transferFailed, s)
      | some bal' =>
        .ok (emit { s with
                    balances := fun a => if a = asset then bal' else s.balances a }
          (.stakeSlashed 0 subject amount asset))

/-- `emergency_withdraw` (lib.rs 683-723): admin auth (environmental), guard,
load, transfer `amount` per set deposited flag to the recipient (skipped when
the total is 0), guard release, `EmergencyWithdraw` event.  Note: the escrow
record is never modified or re-persisted — exactly as in the source. -/
def emergency_withdraw (s : Vault) (m : MatchId) (recipient : Address) :
    Except (VaultError × Vault) Vault :=
  match acquireGuard s m with
  | .error e => .error e
  | .ok s1 =>
    match s1.escrows m with
    | none => .error (.escrowNotFound, s1)
    | some escrow =>
      let total := (if escrow.player_a_deposited then escrow.amount else 0) +
                   (if escrow.player_b_deposited then escrow.amount else 0)
      let tr : Except (VaultError × Vault) Vault :=
        if 0 < total then
          match vaultTransfer s1 escrow.asset s1.contractAddr recipient total
              m (-total) with
          | none => .error (.transferFailed, s1)
          | some s2 => .ok s2
        else .ok s1
      match tr with
      | .error e => .error e
      | .ok s2 =>
        .ok (emit (releaseGuard s2 m)
          (.emergencyWithdraw m s2.admin total escrow.asset))

/-- `set_paused` (lib.rs 220-223): admin auth (environmental), set the flag. -/
def set_paused (s : Vault) (p : Bool) : Except (VaultError × Vault) Vault :=
  .ok { s with paused := p }

/-- `set_treasury` (lib.rs 203-211): admin auth (environmental), set the
treasury address. -/
def set_treasury (s : Vault) (t : Address) : Except (VaultError × Vault) Vault :=
  .ok (emit { s with treasury := some t } (.treasurySet t))

/-- One invocation of a public mutating entry point of the contract. -/
inductive Cmd where
  | createEscrow (m : MatchId) (pa pb : Address) (amount : Int) (asset : Address)
  | deposit (m : MatchId) (player : Address)
  | lockFunds (m : MatchId)
  | releaseToWinner (m : MatchId) (winner : Address)
  | refund (m : MatchId)
  | markDisputed (m : MatchId)
  | resolveDispute (m : MatchId) (winner resolver : Address)
  | slashStake (subject : Address) (amount : Int) (asset : Address)
  | emergencyWithdraw (m : MatchId) (recipient : Address)
  | setPaused (p : Bool)
  | setTreasury (t : Address)
deriving DecidableEq, Repr

/-- Dispatch one invocation.  An `.error (e, sp)` is a Soroban trap: `e` is the
panic, `sp` the state at the moment of the panic, before host rollback. -/
def stepRaw (s : Vault) : Cmd → Except (VaultError × Vault) Vault
  | .createEscrow m pa pb amount asset => create_escrow s m pa pb amount asset
  | .deposit m player => deposit s m player
  | .lockFunds m => lock_funds s m
  | .releaseToWinner m winner => release_to_winner s m winner
  | .refund m => refund s m
  | .markDisputed m => mark_disputed s m
  | .resolveDispute m winner resolver => resolve_dispute s m winner resolver
  | .slashStake subject amount asset => slash_stake s subject amount asset
  | .emergencyWithdraw m recipient => emergency_withdraw s m recipient
  | .setPaused p => set_paused s p
  | .setTreasury t => set_treasury s t

/-- The observable effect of one invocation: on a trap the host rolls the
whole invocation back, so the pre-call state stands. -/
def step (s : Vault) (c : Cmd) : Vault :=
  match stepRaw s c with
  | .ok s' => s'
  | .error _ => s

/-- Run a sequence of invocations. -/
def execTrace (s : Vault) : List Cmd → Vault
  | [] => s
  | c :: cs => execTrace (step s c) cs

/-- The vault as `initialize` leaves it: admin set, unpaused, no escrow
records, no reentrancy flags, empty ghost custody accounts and event log.
Token balances, the identity contract and the timestamp belong to the
environment and are arbitrary. -/
def initVault (admin contractAddr : Address) (bal : Address → Address → Int)
    (idRole : Option (Address → Nat)) (now : Nat) : Vault :=
  { admin := admin
    contractAddr := contractAddr
    treasury := none
    identityRole := idRole
    paused := false
    escrows := fun _ => none
    guard := fun _ => false
    balances := bal
    custody := fun _ => 0
    events := []
    now := now }

/-! ## Derived notions used by the verified properties -/

/-- `Released` and `Refunded` are the terminal state codes. -/
def terminalCode (c : Nat) : Bool :=
  c = EscrowState.released.code || c = EscrowState.refunded.code

/-- Number of deposited flags set on a record. -/
def flagsCount (r : EscrowData) : Nat :=
  (if r.player_a_deposited then 1 else 0) + (if r.player_b_deposited then 1 else 0)

/-- Conservation at one match (spec §3): while the state is not terminal the
custody held for the match is `amount * (deposited flags true)`, at a terminal
state it is 0, and a match without a record holds no custody. -/
def conservationOk (s : Vault) (m : MatchId) : Bool :=
  match s.escrows m with
  | none => s.custody m == 0
  | some r =>
      if terminalCode r.state then s.custody m == 0
      else s.custody m == r.amount * (flagsCount r : Int)

/-- Consistency of the state code with the deposited flags (auxiliary
invariant: the funded states have exactly the matching flags set). -/
def stateFlagsOk (r : EscrowData) : Bool :=
  if r.state = EscrowState.awaitingDeposits.code then
    !r.player_a_deposited && !r.player_b_deposited
  else if r.state = EscrowState.playerADeposited.code then
    r.player_a_deposited && !r.player_b_deposited
  else if r.state = EscrowState.playerBDeposited.code then
    !r.player_a_deposited && r.player_b_deposited
  else if r.state = EscrowState.fullyFunded.code ∨
          r.state = EscrowState.locked.code ∨
          r.state = EscrowState.disputed.code then
    r.player_a_deposited && r.player_b_deposited
  else
    terminalCode r.state

/-- The inductive per-match invariant: conservation plus flag/state consistency. -/
def escrowInv (s : Vault) (m : MatchId) : Bool :=
  conservationOk s m &&
    (match s.escrows m with
     | none => true
     | some r => stateFlagsOk r)

/-- The state code of the record of `m`, if any. -/
def escState (s : Vault) (m : MatchId) : Option Nat :=
  (s.escrows m).map (·.state)

/-- Is `c` a payout attempt (`release_to_winner` or `resolve_dispute`) on `m`? -/
def isPayoutOn (m : MatchId) : Cmd → Bool
  | .releaseToWinner m' _ => m' = m
  | .resolveDispute m' _ _ => m' = m
  | _ => false

/-- The match id an invocation operates on, if any. -/
def Cmd.target : Cmd → Option MatchId
  | .createEscrow m _ _ _ _ => some m
  | .deposit m _ => some m
  | .lockFunds m => some m
  | .releaseToWinner m _ => some m
  | .refund m => some m
  | .markDisputed m => some m
  | .resolveDispute m _ _ => some m
  | .slashStake _ _ _ => none
  | .emergencyWithdraw m _ => some m
  | .setPaused _ => none
  | .setTreasury _ => none

/-- Is this invocation an `emergency_withdraw`? -/
def Cmd.isEmergency : Cmd → Bool
  | .emergencyWithdraw _ _ => true
  | _ => false

/-- The error kind an invocation traps with, if any. -/
def errOf (s : Vault) (c : Cmd) : Option VaultError :=
  match stepRaw s c with
  | .error (e, _) => some e
  | .ok _ => none

/-- Did the invocation succeed (no trap)? -/
def stepOk (s : Vault) (c : Cmd) : Bool :=
  match stepRaw s c with
  | .ok _ => true
  | .error _ => false

/-- Number of successful payouts for match `m` along a trace. -/
def countPayouts (s : Vault) (m : MatchId) : List Cmd → Nat
  | [] => 0
  | c :: cs =>
      (if isPayoutOn m c && stepOk s c then 1 else 0) + countPayouts (step s c) m cs

/-- The record that `create_escrow` inserts. -/
def freshEscrow (s : Vault) (m : MatchId) (pa pb : Address) (amount : Int)
    (asset : Address) : EscrowData :=
  { match_id := m, player_a := pa, player_b := pb, amount := amount,
    asset := asset, state := EscrowState.awaitingDeposits.code,
    player_a_deposited := false, player_b_deposited := false,
    created_at := s.now, locked_at := none, released_at := none }

/-! ## Concrete fixtures

Players `1` and `2`, contract address `99`, admin `100`, treasury `42`,
asset `7`, match id `5`.  The contract address is pre-funded with 200 tokens,
standing for custody of other matches held in the same pooled balance. -/

def demoBal : Address → Address → Int :=
  fun _ h => if h = 1 ∨ h = 2 then 1000 else if h = 99 then 200 else 0

def demoVault : Vault := initVault 100 99 demoBal none 0

/-- `create_escrow`, both deposits, then `lock_funds` for match 5. -/
def demoCmdsLocked : List Cmd :=
  [.createEscrow 5 1 2 100 7, .deposit 5 1, .deposit 5 2, .lockFunds 5]

/-- A locked, fully funded record for match 5. -/
def demoLockedRec : EscrowData :=
  { match_id := 5, player_a := 1, player_b := 2, amount := 100, asset := 7,
    state := EscrowState.locked.code, player_a_deposited := true,
    player_b_deposited := true, created_at := 0, locked_at := some 0,
    released_at := none }

/-- A paused vault holding the locked match-5 record, treasury set. -/
def demoPaused : Vault :=
  { admin := 100, contractAddr := 99, treasury := some 42, identityRole := none,
    paused := true,
    escrows := fun k => if k = 5 then some demoLockedRec else none,
    guard := fun _ => false,
    balances := fun _ h => if h = 99 then 200 else 0,
    custody := fun k => if k = 5 then 200 else 0,
    events := [], now := 0 }

/-- The locked match-5 record with the reentrancy guard of match 5 held. -/
def demoGuarded : Vault :=
  { demoPaused with paused := false, guard := fun k => k = 5 }

/-- The vault after `create_escrow` and a deposit by player 1 only. -/
def demoPartialVault : Vault :=
  execTrace demoVault [.createEscrow 5 1 2 100 7, .deposit 5 1]

/-- The match-5 record of `demoPartialVault`. -/
def demoPartialRec : EscrowData :=
  { freshEscrow demoVault 5 1 2 100 7 with
    player_a_deposited := true
    state := EscrowState.playerADeposited.code }

/-- The locked match-5 escrow after an `emergency_withdraw` to address 50. -/
def demoEmergencyVault : Vault :=
  execTrace demoVault (demoCmdsLocked ++ [.emergencyWithdraw 5 50])

/-- An escrow whose stake (2000) exceeds the players' balances (1000), so a
deposit's token transfer fails. -/
def demoBigVault : Vault := step demoVault (.createEscrow 6 1 2 2000 7)

/-- The vault with the match-5 escrow driven to `Disputed`. -/
def demoDisputedVault : Vault :=
  execTrace demoVault (demoCmdsLocked ++ [.markDisputed 5])

/-- The match-5 record of `demoDisputedVault`. -/
def demoDisputedRec : EscrowData :=
  { demoLockedRec with state := EscrowState.disputed.code }

/-- A released match-5 record (after a payout), custody 0. -/
def demoReleased : Vault :=
  { demoPaused with
    paused := false
    escrows := fun k =>
      if k = 5 then some { demoLockedRec with
                           state := EscrowState.released.code
                           released_at := some 0 }
      else none
    custody := fun _ => 0 }

/-! ## Theorems -/

/-- Characterization of a failing token transfer. -/
theorem vaultTransfer_eq_none_iff {s : Vault} {asset src dst : Address}
    {amt : Int} {m : MatchId} {d : Int} :
    vaultTransfer s asset src dst amt m d = none ↔
      ¬(0 ≤ amt ∧ amt ≤ s.balances asset src) := by
  simp only [vaultTransfer, tokenTransfer]
  split <;> simp_all

/-- Elimination of a successful token transfer inside the vault: the transfer
was legal, the balances of the asset move by `amt` from `src` to `dst`, the
custody of `m` moves by `d`, and everything else is untouched. -/
theorem vaultTransfer_some_elim {s s' : Vault} {asset src dst : Address}
    {amt : Int} {m : MatchId} {d : Int}
    (h : vaultTransfer s asset src dst amt m d = some s') :
    (0 ≤ amt ∧ amt ≤ s.balances asset src) ∧
    (∀ a x, s'.balances a x =
       if a = asset then
         (if x = dst then
            (if x = src then s.balances asset x - amt else s.balances asset x)
              + amt
          else if x = src then s.balances asset x - amt
            else s.balances asset x)
       else s.balances a x) ∧
    s'.escrows = s.escrows ∧ s'.guard = s.guard ∧ s'.paused = s.paused ∧
    s'.admin = s.admin ∧ s'.contractAddr = s.contractAddr ∧
    s'.treasury = s.treasury ∧ s'.identityRole = s.identityRole ∧
    s'.events = s.events ∧ s'.now = s.now ∧
    (∀ k, k ≠ m → s'.custody k = s.custody k) ∧
    s'.custody m = s.custody m + d := by
  simp only [vaultTransfer] at h
  split at h
  · exact absurd h (by simp)
  · rename_i bal' heq
    simp only [Option.some.injEq] at h
    subst h
    simp only [tokenTransfer] at heq
    split at heq
    · rename_i hcond
      simp only [Option.some.injEq] at heq
      subst heq
      refine ⟨hcond, ?_, rfl, rfl, rfl, rfl, rfl, rfl, rfl, rfl, rfl, ?_, by simp⟩
      · intro a x
        by_cases ha : a = asset <;> by_cases hx : x = dst <;>
          by_cases hx' : x = src <;> simp_all
      · intro k hk
        simp [hk]
    · exact absurd heq (by simp)

/-- Master case analysis of one successful invocation, per match: either the
invocation does not target `m` and leaves its record and custody alone, or it
is one of the record-touching operations with its exact precondition and
effect (note that a successful `emergency_withdraw` never changes the
record). -/
theorem stepRaw_ok_record_cases {s s' : Vault} {c : Cmd}
    (hE : stepRaw s c = .ok s') (m : MatchId) :
    (c.target ≠ some m ∧ s'.escrows m = s.escrows m ∧
     s'.custody m = s.custody m) ∨
    (∃ pa pb amount asset, c = .createEscrow m pa pb amount asset ∧
       s.escrows m = none ∧ 0 < amount ∧ pa ≠ pb ∧
       s'.escrows m = some (freshEscrow s m pa pb amount asset) ∧
       s'.custody m = s.custody m) ∨
    (∃ p r, c = .deposit m p ∧ s.escrows m = some r ∧
       (r.state = EscrowState.awaitingDeposits.code ∨
        r.state = EscrowState.playerADeposited.code ∨
        r.state = EscrowState.playerBDeposited.code) ∧
       s'.custody m = s.custody m + r.amount ∧
       ((p = r.player_a ∧ r.player_a_deposited = false ∧
         s'.escrows m = some { r with
           player_a_deposited := true
           state := if r.player_b_deposited then EscrowState.fullyFunded.code
                    else EscrowState.playerADeposited.code }) ∨
        (¬(p = r.player_a) ∧ p = r.player_b ∧ r.player_b_deposited = false ∧
         s'.escrows m = some { r with
           player_b_deposited := true
           state := if r.player_a_deposited then EscrowState.fullyFunded.code
                    else EscrowState.playerBDeposited.code }))) ∨
    (c = .lockFunds m ∧ ∃ r, s.escrows m = some r ∧
       r.state = EscrowState.fullyFunded.code ∧
       s'.escrows m = some { r with
         state := EscrowState.locked.code
         locked_at := some s.now } ∧
       s'.custody m = s.custody m) ∨
    (∃ w, c = .releaseToWinner m w ∧ ∃ r, s.escrows m = some r ∧
       r.state = EscrowState.locked.code ∧
       s'.escrows m = some { r with
         state := EscrowState.released.code
         released_at := some s.now } ∧
       s'.custody m = s.custody m - r.amount * 2) ∨
    (c = .refund m ∧ ∃ r, s.escrows m = some r ∧
       ¬(r.state = EscrowState.released.code ∨
         r.state = EscrowState.refunded.code) ∧
       s'.escrows m = some { r with
         state := EscrowState.refunded.code
         released_at := some s.now } ∧
       s'.custody m = s.custody m -
         ((if r.player_a_deposited then r.amount else 0) +
          (if r.player_b_deposited then r.amount else 0))) ∨
    (c = .markDisputed m ∧ ∃ r, s.escrows m = some r ∧
       r.state = EscrowState.locked.code ∧
       s'.escrows m = some { r with state := EscrowState.disputed.code } ∧
       s'.custody m = s.custody m) ∨
    (∃ w res, c = .resolveDispute m w res ∧ ∃ r, s.escrows m = some r ∧
       r.state = EscrowState.disputed.code ∧
       s'.escrows m = some { r with
         state := EscrowState.released.code
         released_at := some s.now } ∧
       s'.custody m = s.custody m - r.amount * 2) ∨
    (∃ rec, c = .emergencyWithdraw m rec ∧
       s'.escrows m = s.escrows m) := by
  cases c with
  | createEscrow m' pa pb amount asset =>
      simp only [stepRaw, create_escrow] at hE
      split at hE
      · simp at hE
      · split at hE
        · simp at hE
        · split at hE
          · simp at hE
          · split at hE
            · simp at hE
            · rename_i hex hamt hne
              simp only [Except.ok.injEq] at hE
              subst hE
              by_cases hmm : m' = m
              · subst hmm
                refine Or.inr (Or.inl ⟨pa, pb, amount, asset, rfl, ?_, by omega,
                  hne, ?_, rfl⟩)
                · exact Option.not_isSome_iff_eq_none.mp (by simpa using hex)
                · simp [setEscrow, freshEscrow]
              · exact Or.inl ⟨by simp [Cmd.target, hmm],
                  by simp [setEscrow, Ne.symm hmm], rfl⟩
  | deposit m' p =>
      simp only [stepRaw, deposit, acquireGuard] at hE
      split at hE
      · simp at hE
      · split at hE
        · simp at hE
        · rename_i s1 heq
          split at heq
          · simp at heq
          · rename_i hgf
            simp only [Except.ok.injEq] at heq
            subst heq
            split at hE
            · simp at hE
            · rename_i escrow heqEsc
              split at hE
              · simp at hE
              · split at hE
                · simp at hE
                · split at hE
                  · simp at hE
                  · split at hE
                    · simp at hE
                    · rename_i hnim hnA hnB hstv
                      split at hE
                      · simp at hE
                      · rename_i s2 heq2
                        obtain ⟨-, -, esc1, -, -, -, -, -, -, -, now1, custk1,
                          custm1⟩ := vaultTransfer_some_elim heq2
                        simp only [Except.ok.injEq] at hE
                        subst hE
                        by_cases hmm : m' = m
                        · subst hmm
                          refine Or.inr (Or.inr (Or.inl ⟨p, escrow, rfl,
                            heqEsc, not_not.mp hstv, ?_, ?_⟩))
                          · simp [emit, releaseGuard, setEscrow, custm1]
                          · by_cases hisA : p = escrow.player_a
                            · refine Or.inl ⟨hisA, ?_, ?_⟩
                              · by_contra hfa
                                exact hnA ⟨hisA, by simpa using hfa⟩
                              · simp [emit, releaseGuard, setEscrow, hisA]
                            · have hisB : p = escrow.player_b := by
                                by_contra hisB
                                exact hnim ⟨hisA, hisB⟩
                              refine Or.inr ⟨hisA, hisB, ?_, ?_⟩
                              · by_contra hfb
                                exact hnB ⟨hisB, by simpa using hfb⟩
                              · have hBA : ¬escrow.player_b = escrow.player_a :=
                                  hisB ▸ hisA
                                simp [emit, releaseGuard, setEscrow, hisB, hisA,
                                  hBA]
                        · refine Or.inl ⟨by simp [Cmd.target, hmm], ?_, ?_⟩
                          · simp [emit, releaseGuard, setEscrow, Ne.symm hmm,
                              esc1]
                          · simp [emit, releaseGuard, setEscrow,
                              custk1 m (Ne.symm hmm)]
  | lockFunds m' =>
      simp only [stepRaw, lock_funds, acquireGuard] at hE
      split at hE
      · simp at hE
      · split at hE
        · simp at hE
        · rename_i s1 heq
          split at heq
          · simp at heq
          · rename_i hgf
            simp only [Except.ok.injEq] at heq
            subst heq
            split at hE
            · simp at hE
            · rename_i escrow heqEsc
              split at hE
              · simp at hE
              · rename_i hstv
                simp only [Except.ok.injEq] at hE
                subst hE
                by_cases hmm : m' = m
                · subst hmm
                  refine Or.inr (Or.inr (Or.inr (Or.inl ⟨rfl, escrow, heqEsc,
                    not_not.mp hstv, ?_, rfl⟩)))
                  simp [emit, releaseGuard, setEscrow]
                · exact Or.inl ⟨by simp [Cmd.target, hmm],
                    by simp [emit, releaseGuard, setEscrow, Ne.symm hmm], rfl⟩
  | releaseToWinner m' w =>
      simp only [stepRaw, release_to_winner, acquireGuard] at hE
      split at hE
      · simp at hE
      · split at hE
        · simp at hE
        · rename_i s1 heq
          split at heq
          · simp at heq
          · rename_i hgf
            simp only [Except.ok.injEq] at heq
            subst heq
            split at hE
            · simp at hE
            · rename_i escrow heqEsc
              split at hE
              · simp at hE
              · split at hE
                · simp at hE
                · rename_i hst hwin
                  split at hE
                  · simp at hE
                  · rename_i s2 heq2
                    obtain ⟨-, -, esc1, -, -, -, -, -, -, -, now1, custk1,
                      custm1⟩ := vaultTransfer_some_elim heq2
                    simp only [Except.ok.injEq] at hE
                    subst hE
                    by_cases hmm : m' = m
                    · subst hmm
                      refine Or.inr (Or.inr (Or.inr (Or.inr (Or.inl ⟨w, rfl,
                        escrow, heqEsc, not_not.mp hst, ?_, ?_⟩))))
                      · simp [emit, releaseGuard, setEscrow, now1]
                      · simp [emit, releaseGuard, setEscrow, custm1]
                        omega
                    · refine Or.inl ⟨by simp [Cmd.target, hmm], ?_, ?_⟩
                      · simp [emit, releaseGuard, setEscrow, Ne.symm hmm, esc1]
                      · simp [emit, releaseGuard, setEscrow,
                          custk1 m (Ne.symm hmm)]
  | refund m' =>
      simp only [stepRaw, refund, acquireGuard] at hE
      split at hE
      · simp at hE
      · split at hE
        · simp at hE
        · rename_i s1 heq
          split at heq
          · simp at heq
          · rename_i hgf
            simp only [Except.ok.injEq] at heq
            subst heq
            split at hE
            · simp at hE
            · rename_i escrow heqEsc
              split at hE
              · simp at hE
              · rename_i hst
                split at hE
                · simp at hE
                · rename_i s2 heqA
                  split at heqA
                  · rename_i hfa
                    split at heqA
                    · simp at heqA
                    · rename_i s2' heqA3
                      simp only [Except.ok.injEq] at heqA
                      subst heqA
                      obtain ⟨-, -, escA, -, -, -, -, -, -, -, nowA, custkA,
                        custmA⟩ := vaultTransfer_some_elim heqA3
                      split at hE
                      · simp at hE
                      · rename_i s3 heqB
                        split at heqB
                        · rename_i hfb
                          split at heqB
                          · simp at heqB
                          · rename_i s3' heqB3
                            simp only [Except.ok.injEq] at heqB
                            subst heqB
                            obtain ⟨-, -, escB, -, -, -, -, -, -, -, nowB,
                              custkB, custmB⟩ := vaultTransfer_some_elim heqB3
                            simp only [Except.ok.injEq] at hE
                            subst hE
                            by_cases hmm : m' = m
                            · subst hmm
                              refine Or.inr (Or.inr (Or.inr (Or.inr (Or.inr
                                (Or.inl ⟨rfl, escrow, heqEsc, hst, ?_, ?_⟩)))))
                              · simp [emit, releaseGuard, setEscrow, nowB, nowA]
                              · simp [emit, releaseGuard, setEscrow, custmB,
                                  custmA, hfa, hfb]
                                omega
                            · refine Or.inl ⟨by simp [Cmd.target, hmm], ?_, ?_⟩
                              · simp [emit, releaseGuard, setEscrow,
                                  Ne.symm hmm, escB, escA]
                              · simp [emit, releaseGuard, setEscrow,
                                  custkB m (Ne.symm hmm), custkA m (Ne.symm hmm)]
                        · rename_i hfb
                          simp only [Except.ok.injEq] at heqB
                          subst heqB
                          simp only [Except.ok.injEq] at hE
                          subst hE
                          by_cases hmm : m' = m
                          · subst hmm
                            refine Or.inr (Or.inr (Or.inr (Or.inr (Or.inr
                              (Or.inl ⟨rfl, escrow, heqEsc, hst, ?_, ?_⟩)))))
                            · simp [emit, releaseGuard, setEscrow, nowA]
                            · simp [emit, releaseGuard, setEscrow, custmA,
                                hfa, hfb]
                              omega
                          · refine Or.inl ⟨by simp [Cmd.target, hmm], ?_, ?_⟩
                            · simp [emit, releaseGuard, setEscrow, Ne.symm hmm,
                                escA]
                            · simp [emit, releaseGuard, setEscrow,
                                custkA m (Ne.symm hmm)]
                  · rename_i hfa
                    simp only [Except.ok.injEq] at heqA
                    subst heqA
                    split at hE
                    · simp at hE
                    · rename_i s3 heqB
                      split at heqB
                      · rename_i hfb
                        split at heqB
                        · simp at heqB
                        · rename_i s3' heqB3
                          simp only [Except.ok.injEq] at heqB
                          subst heqB
                          obtain ⟨-, -, escB, -, -, -, -, -, -, -, nowB,
                            custkB, custmB⟩ := vaultTransfer_some_elim heqB3
                          simp only [Except.ok.injEq] at hE
                          subst hE
                          by_cases hmm : m' = m
                          · subst hmm
                            refine Or.inr (Or.inr (Or.inr (Or.inr (Or.inr
                              (Or.inl ⟨rfl, escrow, heqEsc, hst, ?_, ?_⟩)))))
                            · simp [emit, releaseGuard, setEscrow, nowB]
                            · simp [emit, releaseGuard, setEscrow, custmB,
                                hfa, hfb]
                              omega
                          · refine Or.inl ⟨by simp [Cmd.target, hmm], ?_, ?_⟩
                            · simp [emit, releaseGuard, setEscrow, Ne.symm hmm,
                                escB]
                            · simp [emit, releaseGuard, setEscrow,
                                custkB m (Ne.symm hmm)]
                      · rename_i hfb
                        simp only [Except.ok.injEq] at heqB
                        subst heqB
                        simp only [Except.ok.injEq] at hE
                        subst hE
                        by_cases hmm : m' = m
                        · subst hmm
                          refine Or.inr (Or.inr (Or.inr (Or.inr (Or.inr
                            (Or.inl ⟨rfl, escrow, heqEsc, hst, ?_, ?_⟩)))))
                          · simp [emit, releaseGuard, setEscrow]
                          · simp [emit, releaseGuard, setEscrow, hfa, hfb]
                        · refine Or.inl ⟨by simp [Cmd.target, hmm], ?_, ?_⟩
                          · simp [emit, releaseGuard, setEscrow, Ne.symm hmm]
                          · simp [emit, releaseGuard, setEscrow]
  | markDisputed m' =>
      simp only [stepRaw, mark_disputed] at hE
      split at hE
      · simp at hE
      · rename_i escrow heqEsc
        split at hE
        · simp at hE
        · rename_i hst
          simp only [Except.ok.injEq] at hE
          subst hE
          by_cases hmm : m' = m
          · subst hmm
            refine Or.inr (Or.inr (Or.inr (Or.inr (Or.inr (Or.inr (Or.inl
              ⟨rfl, escrow, heqEsc, not_not.mp hst, ?_, rfl⟩))))))
            simp [setEscrow]
          · exact Or.inl ⟨by simp [Cmd.target, hmm],
              by simp [setEscrow, Ne.symm hmm], rfl⟩
  | resolveDispute m' w res =>
      simp only [stepRaw, resolve_dispute, acquireGuard] at hE
      split at hE
      · simp at hE
      · split at hE
        · simp at hE
        · split at hE
          · simp at hE
          · rename_i s1 heq
            split at heq
            · simp at heq
            · rename_i hgf
              simp only [Except.ok.injEq] at heq
              subst heq
              split at hE
              · simp at hE
              · rename_i escrow heqEsc
                split at hE
                · simp at hE
                · split at hE
                  · simp at hE
                  · rename_i hst hwin
                    split at hE
                    · simp at hE
                    · rename_i s2 heq2
                      obtain ⟨-, -, esc1, -, -, -, -, -, -, -, now1, custk1,
                        custm1⟩ := vaultTransfer_some_elim heq2
                      simp only [Except.ok.injEq] at hE
                      subst hE
                      by_cases hmm : m' = m
                      · subst hmm
                        refine Or.inr (Or.inr (Or.inr (Or.inr (Or.inr (Or.inr
                          (Or.inr (Or.inl ⟨w, res, rfl, escrow, heqEsc,
                            not_not.mp hst, ?_, ?_⟩)))))))
                        · simp [emit, releaseGuard, setEscrow, now1]
                        · simp [emit, releaseGuard, setEscrow, custm1]
                          omega
                      · refine Or.inl ⟨by simp [Cmd.target, hmm], ?_, ?_⟩
                        · simp [emit, releaseGuard, setEscrow, Ne.symm hmm,
                            esc1]
                        · simp [emit, releaseGuard, setEscrow,
                            custk1 m (Ne.symm hmm)]
  | slashStake subject amount asset =>
      simp only [stepRaw, slash_stake] at hE
      split at hE
      · simp at hE
      · split at hE
        · simp at hE
        · split at hE
          · simp at hE
          · split at hE
            · simp at hE
            · simp only [Except.ok.injEq] at hE
              subst hE
              exact Or.inl ⟨by simp [Cmd.target], by simp [emit], rfl⟩
  | emergencyWithdraw m' recipient =>
      simp only [stepRaw, emergency_withdraw, acquireGuard] at hE
      split at hE
      · simp at hE
      · rename_i s1 heq
        split at heq
        · simp at heq
        · rename_i hgf
          simp only [Except.ok.injEq] at heq
          subst heq
          split at hE
          · simp at hE
          · rename_i escrow heqEsc
            generalize (if escrow.player_a_deposited = true then escrow.amount
              else 0) + (if escrow.player_b_deposited = true then escrow.amount
              else 0) = tot at hE
            split at hE
            · simp at hE
            · rename_i s2 heqT
              simp only [Except.ok.injEq] at hE
              subst hE
              split at heqT
              · split at heqT
                · simp at heqT
                · rename_i s2' heqT3
                  simp only [Except.ok.injEq] at heqT
                  subst heqT
                  obtain ⟨-, -, esc1, -, -, -, -, -, -, -, -, custk1, -⟩ :=
                    vaultTransfer_some_elim heqT3
                  by_cases hmm : m' = m
                  · subst hmm
                    exact Or.inr (Or.inr (Or.inr (Or.inr (Or.inr (Or.inr
                      (Or.inr (Or.inr ⟨recipient, rfl,
                        by simp [emit, releaseGuard, esc1]⟩)))))))
                  · refine Or.inl ⟨by simp [Cmd.target, hmm], ?_, ?_⟩
                    · simp [emit, releaseGuard, esc1]
                    · simp [emit, releaseGuard, custk1 m (Ne.symm hmm)]
              · simp only [Except.ok.injEq] at heqT
                subst heqT
                by_cases hmm : m' = m
                · subst hmm
                  exact Or.inr (Or.inr (Or.inr (Or.inr (Or.inr (Or.inr
                    (Or.inr (Or.inr ⟨recipient, rfl,
                      by simp [emit, releaseGuard]⟩)))))))
                · exact Or.inl ⟨by simp [Cmd.target, hmm],
                    by simp [emit, releaseGuard], rfl⟩
  | setPaused p =>
      simp only [stepRaw, set_paused, Except.ok.injEq] at hE
      subst hE
      exact Or.inl ⟨by simp [Cmd.target], rfl, rfl⟩
  | setTreasury t =>
      simp only [stepRaw, set_treasury, Except.ok.injEq] at hE
      subst hE
      exact Or.inl ⟨by simp [Cmd.target], by simp [emit], rfl⟩

/-- C9: `create_escrow` succeeds only when no record exists for the match id,
the amount is positive and the players differ, in which case it inserts an
`AwaitingDeposits` record with both flags false and moves no value; on an
existing record (contract not paused) it fails with `EscrowAlreadyExists` and
changes nothing. -/
theorem create_escrow_spec (s : Vault) (m : MatchId) (pa pb : Address)
    (amount : Int) (asset : Address) :
    (∀ s', stepRaw s (.createEscrow m pa pb amount asset) = .ok s' →
       s.paused = false ∧ s.escrows m = none ∧ 0 < amount ∧ pa ≠ pb ∧
       s'.escrows m = some (freshEscrow s m pa pb amount asset) ∧
       s'.balances = s.balances ∧ s'.custody = s.custody ∧
       (∀ k, k ≠ m → s'.escrows k = s.escrows k)) ∧
    (∀ r, s.escrows m = some r → s.paused = false →
       stepRaw s (.createEscrow m pa pb amount asset) =
         .error (.escrowAlreadyExists, s) ∧
       step s (.createEscrow m pa pb amount asset) = s) := by
  constructor
  · intro s' h
    simp only [stepRaw, create_escrow] at h
    split at h
    · exact absurd h (by simp)
    · split at h
      · exact absurd h (by simp)
      · split at h
        · exact absurd h (by simp)
        · split at h
          · exact absurd h (by simp)
          · rename_i h1 h2 h3 h4
            cases h
            refine ⟨by simpa using h1, by simpa using h2, by omega, h4, ?_, rfl, rfl, ?_⟩
            · simp [setEscrow, freshEscrow]
            · intro k hk; simp [setEscrow, hk]
  · intro r hr hp
    have : stepRaw s (.createEscrow m pa pb amount asset) =
        .error (.escrowAlreadyExists, s) := by
      simp only [stepRaw, create_escrow, hp, hr]
      simp
    exact ⟨this, by simp [step, this]⟩

/-- C9 witness: a second `create_escrow` on match 5 fails with
`EscrowAlreadyExists` and changes nothing. -/
theorem create_escrow_spec_witness :
    stepRaw (step demoVault (.createEscrow 5 1 2 100 7))
        (.createEscrow 5 1 2 100 7) =
      .error (.escrowAlreadyExists, step demoVault (.createEscrow 5 1 2 100 7)) ∧
    step (step demoVault (.createEscrow 5 1 2 100 7)) (.createEscrow 5 1 2 100 7) =
      step demoVault (.createEscrow 5 1 2 100 7) :=
  (create_escrow_spec (step demoVault (.createEscrow 5 1 2 100 7)) 5 1 2 100 7).2
    (freshEscrow demoVault 5 1 2 100 7) (by decide) (by decide)

/-- C10: while the contract is paused, `create_escrow`, `deposit`,
`lock_funds`, `release_to_winner`, `refund` and `resolve_dispute` all fail with
the contract-is-paused error (and any failed invocation changes nothing),
whereas `mark_disputed`, `slash_stake` and `emergency_withdraw` are not
pause-gated: each succeeds on a concrete paused vault. -/
theorem pause_gating (s : Vault) (m : MatchId) (pa pb w res : Address)
    (amt : Int) (asset : Address) (hp : s.paused = true) :
    (stepRaw s (.createEscrow m pa pb amt asset) = .error (.contractPaused, s) ∧
     stepRaw s (.deposit m pa) = .error (.contractPaused, s) ∧
     stepRaw s (.lockFunds m) = .error (.contractPaused, s) ∧
     stepRaw s (.releaseToWinner m w) = .error (.contractPaused, s) ∧
     stepRaw s (.refund m) = .error (.contractPaused, s) ∧
     stepRaw s (.resolveDispute m w res) = .error (.contractPaused, s)) ∧
    (∀ c, stepOk s c = false → step s c = s) ∧
    (demoPaused.paused = true ∧
     stepOk demoPaused (.markDisputed 5) = true ∧
     stepOk demoPaused (.slashStake 1 50 7) = true ∧
     stepOk demoPaused (.emergencyWithdraw 5 50) = true) := by
  refine ⟨?_, ?_, by decide⟩
  · exact ⟨by simp [stepRaw, create_escrow, hp], by simp [stepRaw, deposit, hp],
      by simp [stepRaw, lock_funds, hp], by simp [stepRaw, release_to_winner, hp],
      by simp [stepRaw, refund, hp], by simp [stepRaw, resolve_dispute, hp]⟩
  · intro c hc
    simp only [step, stepOk] at *
    split at hc
    · exact absurd hc (by simp)
    · rename_i heq
      simp [heq]

/-- C5: in a deposit-accepting state, a deposit by a participant who has not
yet deposited transfers `amount` from the player into custody, sets that
player's flag, recomputes the state (`FullyFunded` when both flags are then
true, else the matching single-sided state), leaves the guard free, persists
the record and emits a `Deposited` event. -/
theorem deposit_spec (s : Vault) (m : MatchId) (player : Address) (r : EscrowData)
    (hp : s.paused = false) (hg : s.guard m = false) (hm : s.escrows m = some r)
    (hst : r.state = EscrowState.awaitingDeposits.code ∨
           r.state = EscrowState.playerADeposited.code ∨
           r.state = EscrowState.playerBDeposited.code)
    (hamt : 0 ≤ r.amount) (hbal : r.amount ≤ s.balances r.asset player)
    (hpc : player ≠ s.contractAddr) :
    (player = r.player_a → r.player_a_deposited = false → player ≠ r.player_b →
      ∃ s', stepRaw s (.deposit m player) = .ok s' ∧
        s'.escrows m = some { r with
          player_a_deposited := true
          state := if r.player_b_deposited then EscrowState.fullyFunded.code
                   else EscrowState.playerADeposited.code } ∧
        s'.balances r.asset player = s.balances r.asset player - r.amount ∧
        s'.balances r.asset s.contractAddr =
          s.balances r.asset s.contractAddr + r.amount ∧
        s'.custody m = s.custody m + r.amount ∧
        (∀ k, s'.guard k = s.guard k) ∧
        s'.events = s.events ++ [.deposited m player r.amount r.asset]) ∧
    (player = r.player_b → r.player_b_deposited = false → player ≠ r.player_a →
      ∃ s', stepRaw s (.deposit m player) = .ok s' ∧
        s'.escrows m = some { r with
          player_b_deposited := true
          state := if r.player_a_deposited then EscrowState.fullyFunded.code
                   else EscrowState.playerBDeposited.code } ∧
        s'.balances r.asset player = s.balances r.asset player - r.amount ∧
        s'.balances r.asset s.contractAddr =
          s.balances r.asset s.contractAddr + r.amount ∧
        s'.custody m = s.custody m + r.amount ∧
        (∀ k, s'.guard k = s.guard k) ∧
        s'.events = s.events ++ [.deposited m player r.amount r.asset]) := by
  constructor
  · intro hA hAd hAB
    subst hA
    simp only [stepRaw, deposit, acquireGuard, hp, hg, Bool.false_eq_true, if_false,
      reduceIte]
    rw [hm]
    simp only [hAd, hAB, not_true, not_false_iff, and_true, and_false, false_and,
      if_false, reduceIte, Bool.false_eq_true, eq_self_iff_true, true_and, not_and,
      and_self]
    rw [if_neg (not_not_intro hst)]
    simp only [vaultTransfer, tokenTransfer]
    rw [if_pos (show (0:Int) ≤ r.amount ∧
      r.amount ≤ s.balances r.asset r.player_a from ⟨hamt, hbal⟩)]
    refine ⟨_, rfl, ?_, ?_, ?_, ?_, ?_, ?_⟩
    · simp [emit, releaseGuard, setEscrow]
    · simp [emit, releaseGuard, setEscrow, hpc]
    · simp [emit, releaseGuard, setEscrow, Ne.symm hpc]
    · simp [emit, releaseGuard, setEscrow]
    · intro k
      by_cases hk : k = m <;> simp [emit, releaseGuard, setEscrow, hk, hg]
    · simp [emit, releaseGuard, setEscrow]
  · intro hB hBd hBA
    subst hB
    simp only [stepRaw, deposit, acquireGuard, hp, hg, Bool.false_eq_true, if_false,
      reduceIte]
    rw [hm]
    simp only [hBd, hBA, not_true, not_false_iff, and_true, and_false, false_and,
      if_false, reduceIte, Bool.false_eq_true, eq_self_iff_true, true_and, not_and,
      and_self]
    rw [if_neg (not_not_intro hst)]
    simp only [vaultTransfer, tokenTransfer]
    rw [if_pos (show (0:Int) ≤ r.amount ∧
      r.amount ≤ s.balances r.asset r.player_b from ⟨hamt, hbal⟩)]
    refine ⟨_, rfl, ?_, ?_, ?_, ?_, ?_, ?_⟩
    · simp [emit, releaseGuard, setEscrow, hBA]
    · simp [emit, releaseGuard, setEscrow, hpc]
    · simp [emit, releaseGuard, setEscrow, Ne.symm hpc]
    · simp [emit, releaseGuard, setEscrow]
    · intro k
      by_cases hk : k = m <;> simp [emit, releaseGuard, setEscrow, hk, hg]
    · simp [emit, releaseGuard, setEscrow]

/-- C5 witness: player 1 deposits first on the fresh match-5 escrow. -/
theorem deposit_spec_witness :
    ∃ s', stepRaw (step demoVault (.createEscrow 5 1 2 100 7)) (.deposit 5 1) =
        .ok s' ∧
      s'.escrows 5 = some { freshEscrow demoVault 5 1 2 100 7 with
        player_a_deposited := true
        state := if (freshEscrow demoVault 5 1 2 100 7).player_b_deposited then
            EscrowState.fullyFunded.code
          else EscrowState.playerADeposited.code } ∧
      s'.balances 7 1 = (step demoVault (.createEscrow 5 1 2 100 7)).balances 7 1
        - 100 ∧
      s'.balances 7 99 = (step demoVault (.createEscrow 5 1 2 100 7)).balances 7 99
        + 100 ∧
      s'.custody 5 = (step demoVault (.createEscrow 5 1 2 100 7)).custody 5 + 100 ∧
      (∀ k, s'.guard k = (step demoVault (.createEscrow 5 1 2 100 7)).guard k) ∧
      s'.events = (step demoVault (.createEscrow 5 1 2 100 7)).events ++
        [.deposited 5 1 100 7] :=
  (deposit_spec (step demoVault (.createEscrow 5 1 2 100 7)) 5 1
      (freshEscrow demoVault 5 1 2 100 7) (by decide) (by decide) (by decide)
      (by decide) (by decide) (by decide) (by decide)).1
    (by decide) (by decide) (by decide)

/-- C8: from any non-finalized state, `refund` returns to each player exactly
what they individually deposited (a player who never deposited receives 0 and
their balance is unchanged), removes that total from custody, sets the state to
`Refunded`, leaves the guard free and emits a `FundsRefunded` event. -/
theorem refund_spec (s : Vault) (m : MatchId) (r : EscrowData)
    (hp : s.paused = false) (hg : s.guard m = false) (hm : s.escrows m = some r)
    (hst : ¬(r.state = EscrowState.released.code ∨
             r.state = EscrowState.refunded.code))
    (hamt : 0 ≤ r.amount)
    (hpool : (if r.player_a_deposited then r.amount else 0) +
             (if r.player_b_deposited then r.amount else 0) ≤
             s.balances r.asset s.contractAddr)
    (hab : r.player_a ≠ r.player_b) (hac : r.player_a ≠ s.contractAddr)
    (hbc : r.player_b ≠ s.contractAddr) :
    ∃ s', stepRaw s (.refund m) = .ok s' ∧
      s'.escrows m = some { r with
        state := EscrowState.refunded.code
        released_at := some s.now } ∧
      s'.balances r.asset r.player_a = s.balances r.asset r.player_a +
        (if r.player_a_deposited then r.amount else 0) ∧
      s'.balances r.asset r.player_b = s.balances r.asset r.player_b +
        (if r.player_b_deposited then r.amount else 0) ∧
      s'.balances r.asset s.contractAddr = s.balances r.asset s.contractAddr -
        ((if r.player_a_deposited then r.amount else 0) +
         (if r.player_b_deposited then r.amount else 0)) ∧
      s'.custody m = s.custody m -
        ((if r.player_a_deposited then r.amount else 0) +
         (if r.player_b_deposited then r.amount else 0)) ∧
      (∀ k, s'.guard k = s.guard k) ∧
      s'.events = s.events ++
        [.fundsRefunded m r.player_a r.player_b r.amount r.asset] := by
  cases hfa : r.player_a_deposited <;> cases hfb : r.player_b_deposited <;>
    simp only [hfa, hfb, Bool.false_eq_true, reduceIte, if_true, if_false] at hpool ⊢
  case false.false =>
    cases hE : stepRaw s (.refund m) with
    | error es =>
        exfalso
        simp only [stepRaw, refund, acquireGuard, hp, hg, hm, hfa, hfb,
          Bool.false_eq_true, reduceIte, if_neg hst] at hE
        exact absurd hE (by simp)
    | ok s' =>
        refine ⟨s', rfl, ?_⟩
        simp only [stepRaw, refund, acquireGuard, hp, hg, hm, hfa, hfb,
          Bool.false_eq_true, reduceIte, if_neg hst, Except.ok.injEq] at hE
        subst hE
        refine ⟨?_, ?_, ?_, ?_, ?_, ?_, ?_⟩ <;>
          simp [emit, releaseGuard, setEscrow, hg, hfa, hfb]
        intro k
        by_cases hk : k = m <;> simp [hk, hg]
  case false.true =>
    cases hE : stepRaw s (.refund m) with
    | error es =>
        exfalso
        simp only [stepRaw, refund, acquireGuard, hp, hg, hm, hfa, hfb,
          Bool.false_eq_true, reduceIte, if_neg hst] at hE
        split at hE
        · rename_i e1 heq
          split at heq
          · rename_i heq2
            rw [vaultTransfer_eq_none_iff] at heq2
            exact heq2 ⟨hamt, by simpa using hpool⟩
          · simp at heq
        · simp at hE
    | ok s' =>
        refine ⟨s', rfl, ?_⟩
        simp only [stepRaw, refund, acquireGuard, hp, hg, hm, hfa, hfb,
          Bool.false_eq_true, reduceIte, if_neg hst] at hE
        split at hE
        · simp at hE
        · rename_i s2 heq
          split at heq
          · simp at heq
          · rename_i s2' heq2
            simp only [Except.ok.injEq] at heq
            subst heq
            obtain ⟨-, bal1, esc1, grd1, -, -, -, -, -, ev1, now1, -, custm1⟩ :=
              vaultTransfer_some_elim heq2
            simp only [Except.ok.injEq] at hE
            subst hE
            refine ⟨?_, ?_, ?_, ?_, ?_, ?_, ?_⟩
            · simp [emit, releaseGuard, setEscrow, now1]
            · simp [emit, releaseGuard, setEscrow, bal1, hab, Ne.symm hac, hac]
            · simp [emit, releaseGuard, setEscrow, bal1, hbc, Ne.symm hbc]
            · simp [emit, releaseGuard, setEscrow, bal1, Ne.symm hbc]
            · simp [emit, releaseGuard, setEscrow, custm1]
              ring
            · intro k
              by_cases hk : k = m <;>
                simp [emit, releaseGuard, setEscrow, grd1, hk, hg]
            · simp [emit, releaseGuard, setEscrow, ev1]
  case true.false =>
    cases hE : stepRaw s (.refund m) with
    | error es =>
        exfalso
        simp only [stepRaw, refund, acquireGuard, hp, hg, hm, hfa, hfb,
          Bool.false_eq_true, reduceIte, if_neg hst] at hE
        split at hE
        · rename_i e1 heq
          split at heq
          · rename_i heq2
            rw [vaultTransfer_eq_none_iff] at heq2
            exact heq2 ⟨hamt, by simpa using hpool⟩
          · simp at heq
        · simp at hE
    | ok s' =>
        refine ⟨s', rfl, ?_⟩
        simp only [stepRaw, refund, acquireGuard, hp, hg, hm, hfa, hfb,
          Bool.false_eq_true, reduceIte, if_neg hst] at hE
        split at hE
        · simp at hE
        · rename_i s2 heq
          split at heq
          · simp at heq
          · rename_i s2' heq2
            simp only [Except.ok.injEq] at heq
            subst heq
            obtain ⟨-, bal1, esc1, grd1, -, -, -, -, -, ev1, now1, -, custm1⟩ :=
              vaultTransfer_some_elim heq2
            simp only [Except.ok.injEq] at hE
            subst hE
            refine ⟨?_, ?_, ?_, ?_, ?_, ?_, ?_⟩
            · simp [emit, releaseGuard, setEscrow, now1]
            · simp [emit, releaseGuard, setEscrow, bal1, hac, Ne.symm hac]
            · simp [emit, releaseGuard, setEscrow, bal1, Ne.symm hab, Ne.symm hbc,
                hbc]
            · simp [emit, releaseGuard, setEscrow, bal1, Ne.symm hac]
            · simp [emit, releaseGuard, setEscrow, custm1]
              ring
            · intro k
              by_cases hk : k = m <;>
                simp [emit, releaseGuard, setEscrow, grd1, hk, hg]
            · simp [emit, releaseGuard, setEscrow, ev1]
  case true.true =>
    cases hE : stepRaw s (.refund m) with
    | error es =>
        exfalso
        simp only [stepRaw, refund, acquireGuard, hp, hg, hm, hfa, hfb,
          Bool.false_eq_true, reduceIte, if_neg hst] at hE
        split at hE
        · rename_i e1 heq
          split at heq
          · rename_i heq2
            rw [vaultTransfer_eq_none_iff] at heq2
            exact heq2 ⟨hamt, by simp; omega⟩
          · simp at heq
        · rename_i s2 heq
          split at heq
          · simp at heq
          · rename_i s2' heq2
            simp only [Except.ok.injEq] at heq
            subst heq
            obtain ⟨-, bal1, esc1, grd1, -, -, ca1, -, -, ev1, now1, -, custm1⟩ :=
              vaultTransfer_some_elim heq2
            split at hE
            · rename_i e2 heqB
              split at heqB
              · rename_i heqB2
                rw [vaultTransfer_eq_none_iff] at heqB2
                refine heqB2 ⟨hamt, ?_⟩
                rw [ca1, bal1]
                simp [Ne.symm hac]
                omega
              · simp at heqB
            · simp at hE
    | ok s' =>
        refine ⟨s', rfl, ?_⟩
        simp only [stepRaw, refund, acquireGuard, hp, hg, hm, hfa, hfb,
          Bool.false_eq_true, reduceIte, if_neg hst] at hE
        split at hE
        · simp at hE
        · rename_i s2 heq
          split at heq
          · simp at heq
          · rename_i s2' heq2
            simp only [Except.ok.injEq] at heq
            subst heq
            obtain ⟨-, bal1, esc1, grd1, -, -, ca1, -, -, ev1, now1, -, custm1⟩ :=
              vaultTransfer_some_elim heq2
            split at hE
            · simp at hE
            · rename_i s3 heqB
              split at heqB
              · simp at heqB
              · rename_i s3' heqB2
                simp only [Except.ok.injEq] at heqB
                subst heqB
                obtain ⟨-, bal2, esc2, grd2, -, -, ca2, -, -, ev2, now2, -, custm2⟩ :=
                  vaultTransfer_some_elim heqB2
                simp only [Except.ok.injEq] at hE
                subst hE
                refine ⟨?_, ?_, ?_, ?_, ?_, ?_, ?_⟩
                · simp [emit, releaseGuard, setEscrow, now2, now1]
                · simp [emit, releaseGuard, setEscrow, bal2, bal1, ca1, hab, hac,
                    Ne.symm hac]
                · simp [emit, releaseGuard, setEscrow, bal2, bal1, ca1, hbc,
                    Ne.symm hbc, Ne.symm hab]
                · simp [emit, releaseGuard, setEscrow, bal2, bal1, ca1,
                    Ne.symm hac, Ne.symm hbc]
                  ring
                · simp [emit, releaseGuard, setEscrow, custm2, custm1]
                  ring
                · intro k
                  by_cases hk : k = m <;>
                    simp [emit, releaseGuard, setEscrow, grd2, grd1, hk, hg]
                · simp [emit, releaseGuard, setEscrow, ev2, ev1]

/-- C8 witness: only player 1 deposited, so `refund` changes only player 1's
balance; player 2's balance is untouched. -/
theorem refund_spec_witness :
    ∃ s', stepRaw demoPartialVault (.refund 5) = .ok s' ∧
      s'.balances 7 1 = demoPartialVault.balances 7 1 + 100 ∧
      s'.balances 7 2 = demoPartialVault.balances 7 2 := by
  obtain ⟨s', h1, -, h3, h4, -⟩ :=
    refund_spec demoPartialVault 5 demoPartialRec (by decide) (by decide)
      (by decide) (by decide) (by decide) (by decide) (by decide) (by decide)
      (by decide)
  exact ⟨s', h1, by simpa using h3, by simpa using h4⟩

/-- An invocation succeeds exactly when `stepRaw` returns `ok`. -/
theorem stepOk_iff_ok {s : Vault} {c : Cmd} :
    stepOk s c = true ↔ ∃ s', stepRaw s c = .ok s' := by
  unfold stepOk
  cases stepRaw s c <;> simp

/-- `Released` is absorbing: no invocation ever changes a released record. -/
theorem released_absorbing {s : Vault} {m : MatchId} {r : EscrowData}
    (hm : s.escrows m = some r) (hr : r.state = EscrowState.released.code)
    (c : Cmd) : (step s c).escrows m = some r := by
  cases hE : stepRaw s c with
  | error es => simp [step, hE, hm]
  | ok s' =>
      have hstep : step s c = s' := by simp [step, hE]
      rw [hstep]
      rcases stepRaw_ok_record_cases hE m with
        ⟨-, h1, -⟩ |
        ⟨pa, pb, amount, asset, -, hnone, -, -, -, -⟩ |
        ⟨p, r2, -, hr2, hstv, -, -⟩ |
        ⟨-, r2, hr2, hstv, -, -⟩ |
        ⟨w, -, r2, hr2, hstv, -, -⟩ |
        ⟨-, r2, hr2, hnst, -, -⟩ |
        ⟨-, r2, hr2, hstv, -, -⟩ |
        ⟨w, res, -, r2, hr2, hstv, -, -⟩ |
        ⟨rec, -, h1⟩
      · rw [h1, hm]
      · rw [hm] at hnone
        exact absurd hnone (by simp)
      · rw [hm] at hr2
        simp only [Option.some.injEq] at hr2
        subst hr2
        rw [hr] at hstv
        simp [EscrowState.code] at hstv
      · rw [hm] at hr2
        simp only [Option.some.injEq] at hr2
        subst hr2
        rw [hr] at hstv
        simp [EscrowState.code] at hstv
      · rw [hm] at hr2
        simp only [Option.some.injEq] at hr2
        subst hr2
        rw [hr] at hstv
        simp [EscrowState.code] at hstv
      · rw [hm] at hr2
        simp only [Option.some.injEq] at hr2
        subst hr2
        rw [hr] at hnst
        simp [EscrowState.code] at hnst
      · rw [hm] at hr2
        simp only [Option.some.injEq] at hr2
        subst hr2
        rw [hr] at hstv
        simp [EscrowState.code] at hstv
      · rw [hm] at hr2
        simp only [Option.some.injEq] at hr2
        subst hr2
        rw [hr] at hstv
        simp [EscrowState.code] at hstv
      · rw [h1, hm]

/-- A successful payout (`release_to_winner` or `resolve_dispute`) starts from
`Locked` or `Disputed` and leaves the record `Released`. -/
theorem payout_ok_released {s s' : Vault} {m : MatchId} {c : Cmd}
    (hpay : isPayoutOn m c = true) (hE : stepRaw s c = .ok s') :
    (∃ r, s.escrows m = some r ∧
      (r.state = EscrowState.locked.code ∨
       r.state = EscrowState.disputed.code)) ∧
    (∃ r', s'.escrows m = some r' ∧
      r'.state = EscrowState.released.code) := by
  cases c with
  | releaseToWinner m' w =>
      have hmm : m = m' := Eq.symm (by simpa [isPayoutOn] using hpay)
      subst hmm
      rcases stepRaw_ok_record_cases hE m with
        ⟨h1, -, -⟩ | ⟨pa, pb, amount, asset, hc, -⟩ | ⟨p, r2, hc, -⟩ |
        ⟨hc, -⟩ | ⟨w2, hc, r2, hr2, hst2, hnew, -⟩ | ⟨hc, -⟩ | ⟨hc, -⟩ |
        ⟨w2, res2, hc, -⟩ | ⟨rec, hc, -⟩
      · simp [Cmd.target] at h1
      · simp at hc
      · simp at hc
      · simp at hc
      · exact ⟨⟨r2, hr2, Or.inl hst2⟩, _, hnew, rfl⟩
      · simp at hc
      · simp at hc
      · simp at hc
      · simp at hc
  | resolveDispute m' w res =>
      have hmm : m = m' := Eq.symm (by simpa [isPayoutOn] using hpay)
      subst hmm
      rcases stepRaw_ok_record_cases hE m with
        ⟨h1, -, -⟩ | ⟨pa, pb, amount, asset, hc, -⟩ | ⟨p, r2, hc, -⟩ |
        ⟨hc, -⟩ | ⟨w2, hc, -⟩ | ⟨hc, -⟩ | ⟨hc, -⟩ |
        ⟨w2, res2, hc, r2, hr2, hst2, hnew, -⟩ | ⟨rec, hc, -⟩
      · simp [Cmd.target] at h1
      · simp at hc
      · simp at hc
      · simp at hc
      · simp at hc
      · simp at hc
      · simp at hc
      · exact ⟨⟨r2, hr2, Or.inr hst2⟩, _, hnew, rfl⟩
      · simp at hc
  | createEscrow m' pa pb amount asset => simp [isPayoutOn] at hpay
  | deposit m' p => simp [isPayoutOn] at hpay
  | lockFunds m' => simp [isPayoutOn] at hpay
  | refund m' => simp [isPayoutOn] at hpay
  | markDisputed m' => simp [isPayoutOn] at hpay
  | slashStake subject amount asset => simp [isPayoutOn] at hpay
  | emergencyWithdraw m' recipient => simp [isPayoutOn] at hpay
  | setPaused p => simp [isPayoutOn] at hpay
  | setTreasury t => simp [isPayoutOn] at hpay

/-- Once the record of `m` is released, no further payout for `m` ever
succeeds. -/
theorem countPayouts_eq_zero_of_released :
    ∀ (cs : List Cmd) (s : Vault) (m : MatchId) (r : EscrowData),
      s.escrows m = some r → r.state = EscrowState.released.code →
      countPayouts s m cs = 0 := by
  intro cs
  induction cs with
  | nil =>
      intro s m r hm hr
      rfl
  | cons c cs ih =>
      intro s m r hm hr
      have habs := released_absorbing hm hr c
      have hhead : (isPayoutOn m c && stepOk s c) = false := by
        by_contra hcon
        rw [Bool.not_eq_false, Bool.and_eq_true] at hcon
        obtain ⟨hpay, hok⟩ := hcon
        obtain ⟨s', hE⟩ := stepOk_iff_ok.mp hok
        obtain ⟨⟨r2, hm2, hst2⟩, -⟩ := payout_ok_released hpay hE
        rw [hm] at hm2
        simp only [Option.some.injEq] at hm2
        subst hm2
        rw [hr] at hst2
        simp [EscrowState.code] at hst2
      simp only [countPayouts, hhead, Bool.false_eq_true, if_false, zero_add]
      exact ih (step s c) m r habs hr

/-- Along any trace of invocations, at most one payout succeeds per match. -/
theorem countPayouts_le_one :
    ∀ (cs : List Cmd) (s : Vault) (m : MatchId), countPayouts s m cs ≤ 1 := by
  intro cs
  induction cs with
  | nil =>
      intro s m
      simp [countPayouts]
  | cons c cs ih =>
      intro s m
      by_cases h : (isPayoutOn m c && stepOk s c) = true
      · have h2 := h
        rw [Bool.and_eq_true] at h2
        obtain ⟨hpay, hok⟩ := h2
        obtain ⟨s', hE⟩ := stepOk_iff_ok.mp hok
        obtain ⟨-, r', hm', hr'⟩ := payout_ok_released hpay hE
        have hstep : step s c = s' := by simp [step, hE]
        have hz : countPayouts (step s c) m cs = 0 := by
          rw [hstep]
          exact countPayouts_eq_zero_of_released cs s' m r' hm' hr'
        simp [countPayouts, h, hz]
      · rw [Bool.not_eq_true] at h
        simp only [countPayouts, h, Bool.false_eq_true, if_false, zero_add]
        exact ih (step s c) m

/-- C1: at most one payout per match — along every trace of invocations at
most one `release_to_winner`/`resolve_dispute` on `m` succeeds, and once the
record is `Released`, a repeat `release_to_winner` fails with the
state-conflict error `escrowNotLocked`, a repeat `resolve_dispute` (by the
admin) fails with `escrowNotDisputed`, and neither changes anything. -/
theorem no_double_payout (s : Vault) (m : MatchId) :
    (∀ cs, countPayouts s m cs ≤ 1) ∧
    (∀ r w, s.escrows m = some r → r.state = EscrowState.released.code →
      s.paused = false → s.guard m = false →
      errOf s (.releaseToWinner m w) = some .escrowNotLocked ∧
      step s (.releaseToWinner m w) = s ∧
      errOf s (.resolveDispute m w s.admin) = some .escrowNotDisputed ∧
      step s (.resolveDispute m w s.admin) = s) := by
  refine ⟨fun cs => countPayouts_le_one cs s m, ?_⟩
  intro r w hm hr hp hg
  refine ⟨?_, ?_, ?_, ?_⟩
  · simp [errOf, stepRaw, release_to_winner, acquireGuard, hp, hg, hm, hr,
      EscrowState.code]
  · simp [step, stepRaw, release_to_winner, acquireGuard, hp, hg, hm, hr,
      EscrowState.code]
  · simp [errOf, stepRaw, resolve_dispute, requireResolverRole, acquireGuard,
      hp, hg, hm, hr, EscrowState.code]
  · simp [step, stepRaw, resolve_dispute, requireResolverRole, acquireGuard,
      hp, hg, hm, hr, EscrowState.code]

/-- C1 witness: the payout bound and the repeat-call failures at the concrete
released vault. -/
theorem no_double_payout_witness :
    countPayouts demoReleased 5 [.releaseToWinner 5 1, .resolveDispute 5 1 100,
      .refund 5] ≤ 1 ∧
    errOf demoReleased (.releaseToWinner 5 1) = some .escrowNotLocked ∧
    errOf demoReleased (.resolveDispute 5 1 demoReleased.admin) =
      some .escrowNotDisputed := by
  obtain ⟨h1, h2⟩ := no_double_payout demoReleased 5
  obtain ⟨e1, -, e2, -⟩ := h2 { demoLockedRec with
      state := EscrowState.released.code
      released_at := some 0 } 1 (by decide) (by decide) (by decide) (by decide)
  exact ⟨h1 _, e1, e2⟩

/-- The conservation invariant and the flag/state consistency follow from the
full per-match invariant. -/
theorem escrowInv_conservation {s : Vault} {m : MatchId}
    (h : escrowInv s m = true) : conservationOk s m = true := by
  unfold escrowInv at h
  rw [Bool.and_eq_true] at h
  exact h.1

/-- C2 counterexample: the conservation invariant holds initially but is broken
by `emergency_withdraw`: after `create`, both deposits, `lock_funds` and
`emergency_withdraw`, the match-5 record is still `Locked` (non-terminal, both
flags set, `amount` 100) while its custody is 0 instead of 200. -/
theorem conservation_emergency_counterexample :
    escrowInv demoVault 5 = true ∧
    escState demoEmergencyVault 5 = some EscrowState.locked.code ∧
    demoEmergencyVault.custody 5 = 0 ∧
    conservationOk demoEmergencyVault 5 = false := by
  decide

/-- C2 amended: the conservation invariant — custody equals
`amount * (deposited flags true)` in non-terminal states and 0 in terminal
states, together with flag/state consistency — holds in the initial vault and
is preserved by every operation except `emergency_withdraw`, which zeroes the
match's custody without finalizing the record. -/
theorem conservation_preserved :
    (∀ (admin ca : Address) (bal : Address → Address → Int)
       (idr : Option (Address → Nat)) (now : Nat) (m : MatchId),
       escrowInv (initVault admin ca bal idr now) m = true) ∧
    (∀ (s : Vault) (c : Cmd) (m : MatchId), c.isEmergency = false →
       escrowInv s m = true →
       escrowInv (step s c) m = true ∧ conservationOk (step s c) m = true) := by
  constructor
  · intro admin ca bal idr now m
    simp [escrowInv, conservationOk, initVault]
  · intro s c m hem hinv
    suffices h : escrowInv (step s c) m = true from
      ⟨h, escrowInv_conservation h⟩
    cases hE : stepRaw s c with
    | error es =>
        simpa [step, hE] using hinv
    | ok s' =>
        have hstep : step s c = s' := by simp [step, hE]
        rw [hstep]
        rcases stepRaw_ok_record_cases hE m with
          ⟨-, h1, h2⟩ |
          ⟨pa, pb, amount, asset, hc, hnone, hpos, hne, hnew, hcust⟩ |
          ⟨p, r, hc, hr, hstv, hcust, hside⟩ |
          ⟨hc, r, hr, hstc, hnew, hcust⟩ |
          ⟨w, hc, r, hr, hstc, hnew, hcust⟩ |
          ⟨hc, r, hr, hnst, hnew, hcust⟩ |
          ⟨hc, r, hr, hstc, hnew, hcust⟩ |
          ⟨w, res, hc, r, hr, hstc, hnew, hcust⟩ |
          ⟨rec, hc, -⟩
        · -- does not touch this match
          unfold escrowInv conservationOk at hinv ⊢
          rw [h1, h2]
          exact hinv
        · -- create_escrow
          unfold escrowInv conservationOk at hinv ⊢
          rw [hnone] at hinv
          rw [hnew, hcust]
          simp only [freshEscrow, stateFlagsOk, terminalCode,
            EscrowState.code, flagsCount] at hinv ⊢
          simp at hinv ⊢
          omega
        · -- deposit
          unfold escrowInv conservationOk at hinv ⊢
          rw [hr] at hinv
          rcases hside with ⟨hpa, hfa, hnew⟩ | ⟨hpa, hpb, hfb, hnew⟩ <;>
            rcases hstv with h0 | h1 | h2 <;>
            rw [hnew, hcust] <;>
            simp_all [stateFlagsOk, terminalCode, EscrowState.code,
              flagsCount] <;>
            omega
        · -- lock_funds
          unfold escrowInv conservationOk at hinv ⊢
          rw [hr] at hinv
          rw [hnew, hcust]
          simp_all [stateFlagsOk, terminalCode, EscrowState.code, flagsCount]
        · -- release_to_winner
          unfold escrowInv conservationOk at hinv ⊢
          rw [hr] at hinv
          rw [hnew, hcust]
          simp_all [stateFlagsOk, terminalCode, EscrowState.code, flagsCount]
        · -- refund
          unfold escrowInv conservationOk at hinv ⊢
          rw [hr] at hinv
          rw [hnew, hcust]
          have h5 : ¬r.state = EscrowState.released.code := fun h => hnst (Or.inl h)
          have h6 : ¬r.state = EscrowState.refunded.code := fun h => hnst (Or.inr h)
          cases hfa : r.player_a_deposited <;> cases hfb : r.player_b_deposited <;>
            simp_all [stateFlagsOk, terminalCode, EscrowState.code, flagsCount] <;>
            omega
        · -- mark_disputed
          unfold escrowInv conservationOk at hinv ⊢
          rw [hr] at hinv
          rw [hnew, hcust]
          simp_all [stateFlagsOk, terminalCode, EscrowState.code, flagsCount]
        · -- resolve_dispute
          unfold escrowInv conservationOk at hinv ⊢
          rw [hr] at hinv
          rw [hnew, hcust]
          simp_all [stateFlagsOk, terminalCode, EscrowState.code, flagsCount]
        · -- emergency_withdraw is excluded
          rw [hc] at hem
          simp [Cmd.isEmergency] at hem

/-- C2 witness: the preservation step applied to `create_escrow` on the demo
vault. -/
theorem conservation_preserved_witness :
    escrowInv (step demoVault (.createEscrow 5 1 2 100 7)) 5 = true ∧
    conservationOk (step demoVault (.createEscrow 5 1 2 100 7)) 5 = true :=
  conservation_preserved.2 demoVault (.createEscrow 5 1 2 100 7) 5 (by decide)
    (by decide)

/-- C3 counterexample: `refund` succeeds on a `Disputed` escrow and moves it
to `Refunded` (returning both deposits), contradicting "the only transition out
of `Disputed` is `Disputed → Released` via `resolve_dispute`". -/
theorem disputed_refund_counterexample :
    escState demoDisputedVault 5 = some EscrowState.disputed.code ∧
    stepOk demoDisputedVault (.refund 5) = true ∧
    escState (step demoDisputedVault (.refund 5)) 5 =
      some EscrowState.refunded.code ∧
    (step demoDisputedVault (.refund 5)).balances 7 1 = 1000 ∧
    (step demoDisputedVault (.refund 5)).balances 7 2 = 1000 := by
  decide

/-- C3 amended: from a `Disputed` record the possible effects are: the record
stays exactly as it is (failed calls, operations on other matches,
`emergency_withdraw`), or `resolve_dispute` moves it to `Released`, or `refund`
moves it to `Refunded`. -/
theorem disputed_transitions (s : Vault) (m : MatchId) (r : EscrowData) (c : Cmd)
    (hm : s.escrows m = some r) (hd : r.state = EscrowState.disputed.code) :
    (step s c).escrows m = some r ∨
    ((∃ w res, c = .resolveDispute m w res) ∧
      ∃ r', (step s c).escrows m = some r' ∧
        r'.state = EscrowState.released.code) ∨
    (c = .refund m ∧
      ∃ r', (step s c).escrows m = some r' ∧
        r'.state = EscrowState.refunded.code) := by
  cases hE : stepRaw s c with
  | error es =>
      left
      simp [step, hE, hm]
  | ok s' =>
      have hstep : step s c = s' := by simp [step, hE]
      rw [hstep]
      rcases stepRaw_ok_record_cases hE m with
        ⟨-, h1, -⟩ |
        ⟨pa, pb, amount, asset, -, hnone, -, -, -, -⟩ |
        ⟨p, r2, -, hr2, hstv, -, -⟩ |
        ⟨-, r2, hr2, hstv, -, -⟩ |
        ⟨w, -, r2, hr2, hstv, -, -⟩ |
        ⟨hc, r2, hr2, -, hnew, -⟩ |
        ⟨-, r2, hr2, hstv, -, -⟩ |
        ⟨w, res, hc, r2, hr2, -, hnew, -⟩ |
        ⟨rec, -, h1⟩
      · left
        rw [h1, hm]
      · rw [hm] at hnone
        exact absurd hnone (by simp)
      · rw [hm] at hr2
        simp only [Option.some.injEq] at hr2
        subst hr2
        rw [hd] at hstv
        simp [EscrowState.code] at hstv
      · rw [hm] at hr2
        simp only [Option.some.injEq] at hr2
        subst hr2
        rw [hd] at hstv
        simp [EscrowState.code] at hstv
      · rw [hm] at hr2
        simp only [Option.some.injEq] at hr2
        subst hr2
        rw [hd] at hstv
        simp [EscrowState.code] at hstv
      · exact Or.inr (Or.inr ⟨hc, _, hnew, rfl⟩)
      · rw [hm] at hr2
        simp only [Option.some.injEq] at hr2
        subst hr2
        rw [hd] at hstv
        simp [EscrowState.code] at hstv
      · exact Or.inr (Or.inl ⟨⟨w, res, hc⟩, _, hnew, rfl⟩)
      · left
        rw [h1, hm]

/-- C3 witness: the amended classification applied to `refund` on the concrete
disputed vault. -/
theorem disputed_transitions_witness :
    (step demoDisputedVault (.refund 5)).escrows 5 = some demoDisputedRec ∨
    ((∃ w res, (Cmd.refund 5) = .resolveDispute 5 w res) ∧
      ∃ r', (step demoDisputedVault (.refund 5)).escrows 5 = some r' ∧
        r'.state = EscrowState.released.code) ∨
    ((Cmd.refund 5) = .refund 5 ∧
      ∃ r', (step demoDisputedVault (.refund 5)).escrows 5 = some r' ∧
        r'.state = EscrowState.refunded.code) :=
  disputed_transitions demoDisputedVault 5 demoDisputedRec (.refund 5)
    (by decide) (by decide)

/-- C4 counterexample: after `emergency_withdraw` on a locked escrow the
record is still `Locked` (not finalized), `release_to_winner` still succeeds on
it, and it pays the winner again — contradicting "force-finalizes the record,
no further transition or payout possible". -/
theorem emergency_no_finalize_counterexample :
    escState demoEmergencyVault 5 = some EscrowState.locked.code ∧
    terminalCode EscrowState.locked.code = false ∧
    stepOk demoEmergencyVault (.releaseToWinner 5 1) = true ∧
    (step demoEmergencyVault (.releaseToWinner 5 1)).balances 7 1 = 1100 ∧
    escState (step demoEmergencyVault (.releaseToWinner 5 1)) 5 =
      some EscrowState.released.code := by
  decide

/-- C4 amended: for any existing escrow (guard free, pooled balance
sufficient), `emergency_withdraw` transfers `amount` per set deposited flag —
the recorded deposits, not necessarily the currently-held custody — to the
recipient, and leaves every escrow record unchanged: it does not finalize the
record. -/
theorem emergency_withdraw_spec (s : Vault) (m : MatchId) (recipient : Address)
    (r : EscrowData) (hg : s.guard m = false) (hm : s.escrows m = some r)
    (hamt : 0 ≤ r.amount)
    (hpool : (if r.player_a_deposited then r.amount else 0) +
             (if r.player_b_deposited then r.amount else 0) ≤
             s.balances r.asset s.contractAddr)
    (hrc : recipient ≠ s.contractAddr) :
    ∃ s', stepRaw s (.emergencyWithdraw m recipient) = .ok s' ∧
      s'.escrows = s.escrows ∧
      s'.balances r.asset recipient = s.balances r.asset recipient +
        ((if r.player_a_deposited then r.amount else 0) +
         (if r.player_b_deposited then r.amount else 0)) ∧
      s'.balances r.asset s.contractAddr = s.balances r.asset s.contractAddr -
        ((if r.player_a_deposited then r.amount else 0) +
         (if r.player_b_deposited then r.amount else 0)) ∧
      s'.custody m = s.custody m -
        ((if r.player_a_deposited then r.amount else 0) +
         (if r.player_b_deposited then r.amount else 0)) ∧
      (∀ k, s'.guard k = s.guard k) ∧
      s'.events = s.events ++
        [.emergencyWithdraw m s.admin
          ((if r.player_a_deposited then r.amount else 0) +
           (if r.player_b_deposited then r.amount else 0)) r.asset] := by
  have key : ∀ (tot : Int), tot = (if r.player_a_deposited then r.amount else 0) +
      (if r.player_b_deposited then r.amount else 0) → 0 ≤ tot →
      ∃ s', stepRaw s (.emergencyWithdraw m recipient) = .ok s' ∧
      s'.escrows = s.escrows ∧
      s'.balances r.asset recipient = s.balances r.asset recipient + tot ∧
      s'.balances r.asset s.contractAddr =
        s.balances r.asset s.contractAddr - tot ∧
      s'.custody m = s.custody m - tot ∧
      (∀ k, s'.guard k = s.guard k) ∧
      s'.events = s.events ++ [.emergencyWithdraw m s.admin tot r.asset] := by
    intro tot htot h0
    have hpool' : tot ≤ s.balances r.asset s.contractAddr := htot ▸ hpool
    rcases lt_or_eq_of_le h0 with hpos | hzero
    · cases hE : stepRaw s (.emergencyWithdraw m recipient) with
      | error es =>
          exfalso
          simp only [stepRaw, emergency_withdraw, acquireGuard, hg, hm,
            Bool.false_eq_true, reduceIte, ← htot, if_pos hpos] at hE
          split at hE
          · rename_i e1 heq
            split at heq
            · rename_i heq2
              rw [vaultTransfer_eq_none_iff] at heq2
              exact heq2 ⟨h0, hpool'⟩
            · simp at heq
          · simp at hE
      | ok s' =>
          refine ⟨s', rfl, ?_⟩
          simp only [stepRaw, emergency_withdraw, acquireGuard, hg, hm,
            Bool.false_eq_true, reduceIte, ← htot, if_pos hpos] at hE
          split at hE
          · simp at hE
          · rename_i s2 heq
            split at heq
            · simp at heq
            · rename_i s2' heq2
              simp only [Except.ok.injEq] at heq
              subst heq
              obtain ⟨-, bal1, esc1, grd1, -, adm1, -, -, -, ev1, -, -, custm1⟩ :=
                vaultTransfer_some_elim heq2
              simp only [Except.ok.injEq] at hE
              subst hE
              refine ⟨?_, ?_, ?_, ?_, ?_, ?_⟩
              · funext k
                simp [emit, releaseGuard, esc1]
              · simp [emit, releaseGuard, bal1, hrc]
              · simp [emit, releaseGuard, bal1, Ne.symm hrc]
              · simp [emit, releaseGuard, custm1]
                omega
              · intro k
                by_cases hk : k = m <;> simp [emit, releaseGuard, grd1, hk, hg]
              · simp [emit, releaseGuard, ev1, adm1]
    · cases hE : stepRaw s (.emergencyWithdraw m recipient) with
      | error es =>
          exfalso
          simp only [stepRaw, emergency_withdraw, acquireGuard, hg, hm,
            Bool.false_eq_true, reduceIte, ← htot, ← hzero, lt_irrefl] at hE
          exact absurd hE (by simp)
      | ok s' =>
          refine ⟨s', rfl, ?_⟩
          simp only [stepRaw, emergency_withdraw, acquireGuard, hg, hm,
            Bool.false_eq_true, reduceIte, ← htot, ← hzero, lt_irrefl,
            Except.ok.injEq] at hE
          subst hE
          refine ⟨?_, ?_, ?_, ?_, ?_, ?_⟩
          · funext k
            simp [emit, releaseGuard]
          · simp [emit, releaseGuard, ← hzero]
          · simp [emit, releaseGuard, ← hzero]
          · simp [emit, releaseGuard, ← hzero]
          · intro k
            by_cases hk : k = m <;> simp [emit, releaseGuard, hk, hg]
          · simp [emit, releaseGuard, ← hzero]
  have h0 : 0 ≤ (if r.player_a_deposited then r.amount else 0) +
      (if r.player_b_deposited then r.amount else 0) := by
    cases r.player_a_deposited <;> cases r.player_b_deposited <;> simp <;> omega
  exact key _ rfl h0

/-- C4 witness: `emergency_withdraw` on the paused demo vault succeeds and
leaves the records unchanged. -/
theorem emergency_withdraw_spec_witness :
    ∃ s', stepRaw demoPaused (.emergencyWithdraw 5 50) = .ok s' ∧
      s'.escrows = demoPaused.escrows := by
  obtain ⟨s', h1, h2, -⟩ :=
    emergency_withdraw_spec demoPaused 5 50 demoLockedRec (by decide) (by decide)
      (by decide) (by decide) (by decide)
  exact ⟨s', h1, h2⟩

/-- C6: no operation partially applies.  Observably (after the host rolls a
trapped invocation back) every failed call leaves the state exactly as before;
moreover inside `deposit` every panic point — including a failed asset
transfer — is reached before any record write, balance move or custody change,
so even the pre-rollback panic state carries unchanged records, balances and
custody. -/
theorem error_atomicity (s : Vault) (c : Cmd) (e : VaultError) (sp : Vault)
    (hE : stepRaw s c = .error (e, sp)) :
    step s c = s ∧
    (∀ m p, c = Cmd.deposit m p →
      sp.escrows = s.escrows ∧ sp.balances = s.balances ∧
      sp.custody = s.custody) := by
  refine ⟨by simp [step, hE], ?_⟩
  rintro m p rfl
  simp only [stepRaw, deposit, acquireGuard] at hE
  split at hE
  · -- contract paused
    simp only [Except.error.injEq, Prod.mk.injEq] at hE
    obtain ⟨rfl, rfl⟩ := hE
    exact ⟨rfl, rfl, rfl⟩
  · split at hE
    · -- guard block returned an error
      rename_i e1 heq
      simp only [Except.error.injEq] at hE
      subst hE
      split at heq
      · -- reentrancy detected
        simp only [Except.error.injEq, Prod.mk.injEq] at heq
        obtain ⟨rfl, rfl⟩ := heq.symm
        exact ⟨rfl, rfl, rfl⟩
      · simp at heq
    · -- guard acquired
      rename_i s1 heq
      split at heq
      · simp at heq
      · simp only [Except.ok.injEq] at heq
        subst heq
        split at hE
        · -- escrow not found
          simp only [Except.error.injEq, Prod.mk.injEq] at hE
          obtain ⟨rfl, rfl⟩ := hE
          exact ⟨rfl, rfl, rfl⟩
        · -- record loaded
          split at hE
          · -- player not in match
            simp only [Except.error.injEq, Prod.mk.injEq] at hE
            obtain ⟨rfl, rfl⟩ := hE
            exact ⟨rfl, rfl, rfl⟩
          · split at hE
            · -- player A already deposited
              simp only [Except.error.injEq, Prod.mk.injEq] at hE
              obtain ⟨rfl, rfl⟩ := hE
              exact ⟨rfl, rfl, rfl⟩
            · split at hE
              · -- player B already deposited
                simp only [Except.error.injEq, Prod.mk.injEq] at hE
                obtain ⟨rfl, rfl⟩ := hE
                exact ⟨rfl, rfl, rfl⟩
              · split at hE
                · -- invalid state for deposit
                  simp only [Except.error.injEq, Prod.mk.injEq] at hE
                  obtain ⟨rfl, rfl⟩ := hE
                  exact ⟨rfl, rfl, rfl⟩
                · split at hE
                  · -- the token transfer failed: nothing had moved yet
                    simp only [Except.error.injEq, Prod.mk.injEq] at hE
                    obtain ⟨rfl, rfl⟩ := hE
                    exact ⟨rfl, rfl, rfl⟩
                  · simp at hE

/-- C6 witness: the deposit on the under-funded escrow fails (its transfer
fails) and the observable state is exactly the pre-call state; the panic-time
state still has the original records. -/
theorem error_atomicity_witness :
    step demoBigVault (.deposit 6 1) = demoBigVault ∧
    ({ demoBigVault with
       guard := fun k => if k = 6 then true else demoBigVault.guard k } :
      Vault).escrows = demoBigVault.escrows := by
  obtain ⟨h1, h2⟩ := error_atomicity demoBigVault (.deposit 6 1) .transferFailed
    { demoBigVault with
      guard := fun k => if k = 6 then true else demoBigVault.guard k } rfl
  exact ⟨h1, (h2 6 1 rfl).1⟩

/-- Every successful invocation leaves the reentrancy flags exactly as it
found them (the guarded operations acquire and then release on the success
path; the others never touch the flags). -/
theorem stepRaw_ok_guard {s s' : Vault} {c : Cmd} (hE : stepRaw s c = .ok s') :
    ∀ k, s'.guard k = s.guard k := by
  intro k
  cases c with
  | createEscrow m pa pb amount asset =>
      simp only [stepRaw, create_escrow] at hE
      split at hE
      · simp at hE
      · split at hE
        · simp at hE
        · split at hE
          · simp at hE
          · split at hE
            · simp at hE
            · simp only [Except.ok.injEq] at hE
              subst hE
              simp [setEscrow]
  | deposit m p =>
      simp only [stepRaw, deposit, acquireGuard] at hE
      split at hE
      · simp at hE
      · split at hE
        · simp at hE
        · rename_i s1 heq
          split at heq
          · simp at heq
          · rename_i hgf
            simp only [Except.ok.injEq] at heq
            subst heq
            split at hE
            · simp at hE
            · split at hE
              · simp at hE
              · split at hE
                · simp at hE
                · split at hE
                  · simp at hE
                  · split at hE
                    · simp at hE
                    · split at hE
                      · simp at hE
                      · rename_i s2 heq2
                        obtain ⟨-, -, -, grd1, -⟩ := vaultTransfer_some_elim heq2
                        simp only [Except.ok.injEq] at hE
                        subst hE
                        by_cases hk : k = m <;>
                          simp_all [emit, releaseGuard, setEscrow]
  | lockFunds m =>
      simp only [stepRaw, lock_funds, acquireGuard] at hE
      split at hE
      · simp at hE
      · split at hE
        · simp at hE
        · rename_i s1 heq
          split at heq
          · simp at heq
          · rename_i hgf
            simp only [Except.ok.injEq] at heq
            subst heq
            split at hE
            · simp at hE
            · split at hE
              · simp at hE
              · simp only [Except.ok.injEq] at hE
                subst hE
                by_cases hk : k = m <;>
                  simp_all [emit, releaseGuard, setEscrow]
  | releaseToWinner m w =>
      simp only [stepRaw, release_to_winner, acquireGuard] at hE
      split at hE
      · simp at hE
      · split at hE
        · simp at hE
        · rename_i s1 heq
          split at heq
          · simp at heq
          · rename_i hgf
            simp only [Except.ok.injEq] at heq
            subst heq
            split at hE
            · simp at hE
            · split at hE
              · simp at hE
              · split at hE
                · simp at hE
                · split at hE
                  · simp at hE
                  · rename_i s2 heq2
                    obtain ⟨-, -, -, grd1, -⟩ := vaultTransfer_some_elim heq2
                    simp only [Except.ok.injEq] at hE
                    subst hE
                    by_cases hk : k = m <;>
                      simp_all [emit, releaseGuard, setEscrow]
  | refund m =>
      simp only [stepRaw, refund, acquireGuard] at hE
      split at hE
      · simp at hE
      · split at hE
        · simp at hE
        · rename_i s1 heq
          split at heq
          · simp at heq
          · rename_i hgf
            simp only [Except.ok.injEq] at heq
            subst heq
            split at hE
            · simp at hE
            · split at hE
              · simp at hE
              · split at hE
                · simp at hE
                · rename_i s2 heqA
                  split at heqA
                  · rename_i heqA2
                    -- player A transferred
                    split at heqA
                    · simp at heqA
                    · rename_i s2' heqA3
                      simp only [Except.ok.injEq] at heqA
                      subst heqA
                      obtain ⟨-, -, -, grdA, -⟩ := vaultTransfer_some_elim heqA3
                      split at hE
                      · simp at hE
                      · rename_i s3 heqB
                        split at heqB
                        · split at heqB
                          · simp at heqB
                          · rename_i s3' heqB3
                            simp only [Except.ok.injEq] at heqB
                            subst heqB
                            obtain ⟨-, -, -, grdB, -⟩ := vaultTransfer_some_elim heqB3
                            simp only [Except.ok.injEq] at hE
                            subst hE
                            by_cases hk : k = m <;>
                              simp_all [emit, releaseGuard, setEscrow]
                        · simp only [Except.ok.injEq] at heqB
                          subst heqB
                          simp only [Except.ok.injEq] at hE
                          subst hE
                          by_cases hk : k = m <;>
                            simp_all [emit, releaseGuard, setEscrow]
                  · -- player A did not deposit
                    simp only [Except.ok.injEq] at heqA
                    subst heqA
                    split at hE
                    · simp at hE
                    · rename_i s3 heqB
                      split at heqB
                      · split at heqB
                        · simp at heqB
                        · rename_i s3' heqB3
                          simp only [Except.ok.injEq] at heqB
                          subst heqB
                          obtain ⟨-, -, -, grdB, -⟩ := vaultTransfer_some_elim heqB3
                          simp only [Except.ok.injEq] at hE
                          subst hE
                          by_cases hk : k = m <;>
                            simp_all [emit, releaseGuard, setEscrow]
                      · simp only [Except.ok.injEq] at heqB
                        subst heqB
                        simp only [Except.ok.injEq] at hE
                        subst hE
                        by_cases hk : k = m <;>
                          simp_all [emit, releaseGuard, setEscrow]
  | markDisputed m =>
      simp only [stepRaw, mark_disputed] at hE
      split at hE
      · simp at hE
      · split at hE
        · simp at hE
        · simp only [Except.ok.injEq] at hE
          subst hE
          simp [setEscrow]
  | resolveDispute m w res =>
      simp only [stepRaw, resolve_dispute, acquireGuard] at hE
      split at hE
      · simp at hE
      · split at hE
        · simp at hE
        · split at hE
          · simp at hE
          · rename_i s1 heq
            split at heq
            · simp at heq
            · rename_i hgf
              simp only [Except.ok.injEq] at heq
              subst heq
              split at hE
              · simp at hE
              · split at hE
                · simp at hE
                · split at hE
                  · simp at hE
                  · split at hE
                    · simp at hE
                    · rename_i s2 heq2
                      obtain ⟨-, -, -, grd1, -⟩ := vaultTransfer_some_elim heq2
                      simp only [Except.ok.injEq] at hE
                      subst hE
                      by_cases hk : k = m <;>
                        simp_all [emit, releaseGuard, setEscrow]
  | slashStake subject amount asset =>
      simp only [stepRaw, slash_stake] at hE
      split at hE
      · simp at hE
      · split at hE
        · simp at hE
        · split at hE
          · simp at hE
          · split at hE
            · simp at hE
            · simp only [Except.ok.injEq] at hE
              subst hE
              simp [emit]
  | emergencyWithdraw m recipient =>
      simp only [stepRaw, emergency_withdraw, acquireGuard] at hE
      split at hE
      · simp at hE
      · rename_i s1 heq
        split at heq
        · simp at heq
        · rename_i hgf
          simp only [Except.ok.injEq] at heq
          subst heq
          split at hE
          · simp at hE
          · rename_i escrow heqEsc
            generalize (if escrow.player_a_deposited = true then escrow.amount
              else 0) + (if escrow.player_b_deposited = true then escrow.amount
              else 0) = tot at hE
            split at hE
            · simp at hE
            · rename_i s2 heqT
              simp only [Except.ok.injEq] at hE
              subst hE
              split at heqT
              · split at heqT
                · simp at heqT
                · rename_i s2' heqT3
                  simp only [Except.ok.injEq] at heqT
                  subst heqT
                  obtain ⟨-, -, -, grd1, -⟩ := vaultTransfer_some_elim heqT3
                  by_cases hk : k = m <;>
                    simp_all [emit, releaseGuard]
              · simp only [Except.ok.injEq] at heqT
                subst heqT
                by_cases hk : k = m <;>
                  simp_all [emit, releaseGuard]
  | setPaused p =>
      simp only [stepRaw, set_paused, Except.ok.injEq] at hE
      subst hE
      rfl
  | setTreasury t =>
      simp only [stepRaw, set_treasury, Except.ok.injEq] at hE
      subst hE
      rfl

/-- C7 counterexample: `mark_disputed` takes no reentrancy guard: with the
guard of match 5 held it still succeeds and mutates the record, contradicting
"while the guard is held, any mutating operation fails with
`ReentrancyDetected` and leaves the record unchanged". -/
theorem guard_mark_disputed_counterexample :
    demoGuarded.guard 5 = true ∧
    stepOk demoGuarded (.markDisputed 5) = true ∧
    escState demoGuarded 5 = some EscrowState.locked.code ∧
    escState (step demoGuarded (.markDisputed 5)) 5 =
      some EscrowState.disputed.code := by
  decide

/-- C7 amended: `deposit`, `lock_funds`, `release_to_winner`, `refund`,
`resolve_dispute` and `emergency_withdraw` acquire the per-match guard — while
it is held each fails with `ReentrancyDetected` leaving the state untouched —
and every successful operation leaves the guard as it found it; but
`create_escrow`, `mark_disputed` and `slash_stake` never touch the guard, and
`mark_disputed` can mutate the record while the guard is held. -/
theorem reentrancy_guard_spec (s : Vault) (m : MatchId) (p w recipient : Address)
    (hg : s.guard m = true) (hp : s.paused = false) :
    (stepRaw s (.deposit m p) = .error (.reentrancyDetected, s) ∧
     stepRaw s (.lockFunds m) = .error (.reentrancyDetected, s) ∧
     stepRaw s (.releaseToWinner m w) = .error (.reentrancyDetected, s) ∧
     stepRaw s (.refund m) = .error (.reentrancyDetected, s) ∧
     stepRaw s (.resolveDispute m w s.admin) = .error (.reentrancyDetected, s) ∧
     stepRaw s (.emergencyWithdraw m recipient) =
       .error (.reentrancyDetected, s)) ∧
    (∀ c s', stepRaw s c = .ok s' → ∀ k, s'.guard k = s.guard k) ∧
    (demoGuarded.guard 5 = true ∧
     stepOk demoGuarded (.markDisputed 5) = true) := by
  refine ⟨⟨?_, ?_, ?_, ?_, ?_, ?_⟩, ?_, by decide⟩
  · simp [stepRaw, deposit, acquireGuard, hp, hg]
  · simp [stepRaw, lock_funds, acquireGuard, hp, hg]
  · simp [stepRaw, release_to_winner, acquireGuard, hp, hg]
  · simp [stepRaw, refund, acquireGuard, hp, hg]
  · simp [stepRaw, resolve_dispute, requireResolverRole, acquireGuard, hp, hg]
  · simp [stepRaw, emergency_withdraw, acquireGuard, hg]
  · intro c s' h
    exact stepRaw_ok_guard h

/-- C7 witness: the guarded failures and guard preservation at the concrete
guard-held vault. -/
theorem reentrancy_guard_spec_witness :
    stepRaw demoGuarded (.deposit 5 1) =
      .error (.reentrancyDetected, demoGuarded) ∧
    stepRaw demoGuarded (.refund 5) =
      .error (.reentrancyDetected, demoGuarded) := by
  obtain ⟨⟨h1, -, -, h4, -⟩, -, -⟩ :=
    reentrancy_guard_spec demoGuarded 5 1 1 50 (by decide) (by decide)
  exact ⟨h1, h4⟩

/-- C10 witness: the pause gating applied at the concrete paused vault. -/
theorem pause_gating_witness :
    stepRaw demoPaused (.deposit 5 1) = .error (.contractPaused, demoPaused) ∧
    stepOk demoPaused (.markDisputed 5) = true :=
  ⟨(pause_gating demoPaused 5 1 2 1 100 100 7 (by decide)).1.2.1,
   (pause_gating demoPaused 5 1 2 1 100 100 7 (by decide)).2.2.2.1⟩

end ArenaXEscrow
